import Mathlib

/-!
Shallow embedding of `src/data_manager.py` (class `AgriculturalDataManager`)
from the repository AnalyseAgricoles.

Conventions used throughout this development:
* pandas timestamps are rationals counting days (fractional part = time of day);
  a calendar day is the integer floor of a timestamp (`resample('D')` bins).
* `NaN` / `NaT` cells are `Option.none`; pandas' NaN-skipping aggregations
  (`mean`, `mode`, …) are modelled by dropping `none` entries first.
* Python floats are embedded as `ℚ` where the source only takes means and
  linear combinations, and as `ℝ` where a square root genuinely occurs
  (`StandardScaler`, `Series.std`).
* a Python function body wrapped in `try/except` that prints and returns
  `None` is embedded as a total function into `Option`/pairs; a body with no
  handler is embedded as `Except String`, errors modelling the exception
  that would propagate to the caller.
-/

namespace AnalyseAgricoles

/-- NaN-skipping mean of a column of rational cells (`pandas` `mean`):
`none` entries are dropped; the mean of an empty column is NaN (`none`). -/
def nanmean (xs : List (Option ℚ)) : Option ℚ :=
  let vs := xs.reduceOption
  if vs.length = 0 then none else some (vs.sum / vs.length)

/-- Minimum of a list, `none` on the empty list. -/
def listMin {α : Type} [Min α] (xs : List α) : Option α :=
  xs.foldl (fun acc x => match acc with
    | none => some x
    | some a => some (min a x)) none

/-- Maximum of a list, `none` on the empty list. -/
def listMax {α : Type} [Max α] (xs : List α) : Option α :=
  xs.foldl (fun acc x => match acc with
    | none => some x
    | some a => some (max a x)) none

/-- The calendar day of a timestamp: the bin assigned by `resample('D')`. -/
def dayOf (t : ℚ) : ℤ := ⌊t⌋

/-- All days of the closed range `[a, b]`. -/
def closedRange (a b : ℤ) : List ℤ :=
  (List.range (b - a + 1).toNat).map (fun (i : ℕ) => a + (i : ℤ))

/-- The weather table (`self.weather_data`): a `date` column (cells already
coerced by `pd.to_datetime(..., errors='coerce')`, so invalid entries are
`NaT` = `none`) plus named numeric columns, all lists parallel to `date`. -/
structure WTable where
  date : List (Option ℚ)
  cols : List (String × List (Option ℚ))
deriving DecidableEq

/-- Calendar days of the valid (non-`NaT`) dates of the table, in row order. -/
def validDays (t : WTable) : List ℤ :=
  t.date.reduceOption.map dayOf

/-- Cells of one column that fall on calendar day `d` (rows whose date is
valid and floors to `d`), in row order. -/
def cellsOnDay (dates : List (Option ℚ)) (vals : List (Option ℚ)) (d : ℤ) :
    List (Option ℚ) :=
  (dates.zip vals).filterMap (fun p =>
    match p.1 with
    | some q => if dayOf q = d then some p.2 else none
    | none => none)

/-- `meteo_data_hourly_to_daily`'s core:
`weather_data.set_index('date').resample('D').mean().reset_index()`.
The output has one row per calendar day of the closed range from the earliest
to the latest valid date (empty on a table with no valid date), each numeric
cell being the NaN-skipping mean of that day's observations. -/
def resampleDaily (t : WTable) : WTable :=
  match listMin (validDays t), listMax (validDays t) with
  | some a, some b =>
      let days := closedRange a b
      { date := days.map (fun (d : ℤ) => some ((d : ℚ))),
        cols := t.cols.map (fun c =>
          (c.1, days.map (fun d => nanmean (cellsOnDay t.date c.2 d)))) }
  | _, _ => { date := [], cols := t.cols.map (fun c => (c.1, [])) }

/-- A row of the crop-monitoring table (`monitoring_cultures.csv`):
parcel identifier, observation date (ordinal day), NDVI (possibly missing),
crop, and coordinates. -/
structure MRow where
  parcelle_id : String
  mdate : ℤ
  ndvi : Option ℚ
  culture : String
  latitude : ℚ
  longitude : ℚ
deriving DecidableEq

/-- The right-side date chosen by `pd.merge_asof(..., direction='nearest')`
for one left date `d`: the candidate minimising the absolute distance, the
earlier one winning ties (pandas resolves equidistant candidates to the
backward match). -/
def nearestDate (d : ℚ) (ws : List ℚ) : Option ℚ :=
  ws.foldl (fun acc w =>
    match acc with
    | none => some w
    | some b => if |w - d| < |b - d| then some w else some b) none

/-- The monitoring-to-weather pairing computed by the `pd.merge_asof` call of
`prepare_features`: each monitoring row is paired with the nearest weather
date (or nothing when the weather table has no rows). -/
def mergeAsofNearest (ms : List MRow) (wdates : List ℚ) :
    List (MRow × Option ℚ) :=
  ms.map (fun m => (m, nearestDate (m.mdate : ℚ) wdates))

/-! ## Risk scorer (`calculate_risk_metrics`) -/

/-- The four ordered categories produced by `pd.cut(..., labels=['Très Bas',
'Bas', 'Modéré', 'Élevé'])`, in ascending category order. -/
inductive RiskCat where
  | tresBas
  | bas
  | modere
  | eleve
deriving DecidableEq

/-- The label string of each category, as in the source. -/
def RiskCat.label : RiskCat → String
  | .tresBas => "Très Bas"
  | .bas => "Bas"
  | .modere => "Modéré"
  | .eleve => "Élevé"

/-- Position of a category in the ascending category order (`pd.cut` bin
order), used by `Series.mode` on a categorical column. -/
def RiskCat.rank : RiskCat → ℕ
  | .tresBas => 0
  | .bas => 1
  | .modere => 2
  | .eleve => 3

/-- All categories in ascending category order. -/
def allCats : List RiskCat := [.tresBas, .bas, .modere, .eleve]

/-- `pd.cut(x, bins=[-inf, -1, 0, 1, inf], labels=...)` on a non-NaN value:
bins are right-closed, so `(-∞,-1] ↦ Très Bas`, `(-1,0] ↦ Bas`,
`(0,1] ↦ Modéré`, `(1,∞) ↦ Élevé`. -/
noncomputable def riskCut (x : ℝ) : RiskCat :=
  if x ≤ -1 then .tresBas
  else if x ≤ 0 then .bas
  else if x ≤ 1 then .modere
  else .eleve

/-- A cell of a dynamically-typed DataFrame column. -/
inductive Cell where
  | null
  | str (s : String)
  | num (x : ℝ)
  | catg (c : RiskCat)

/-- A DataFrame as a named list of columns. -/
structure DF where
  cols : List (String × List Cell)

/-- The column names of a DataFrame (`data.columns`). -/
def DF.names (df : DF) : List String := df.cols.map (fun p => p.1)

/-- Look a column up by name. -/
def DF.col? (df : DF) (n : String) : Option (List Cell) :=
  (df.cols.find? (fun p => p.1 == n)).map (fun p => p.2)

/-- Look a column up by name, defaulting to the empty column. -/
def DF.colD (df : DF) (n : String) : List Cell := (df.col? n).getD []

/-- `data[n] = vs`: replace the column when present, append it otherwise. -/
def DF.setCol (df : DF) (n : String) (vs : List Cell) : DF :=
  if df.names.contains n then
    { cols := df.cols.map (fun p => if p.1 == n then (p.1, vs) else p) }
  else
    { cols := df.cols ++ [(n, vs)] }

/-- A cell acceptable to `StandardScaler` (float or NaN; a string cell makes
`fit_transform` raise). -/
def numericOk (c : Cell) : Bool :=
  match c with
  | .num _ => true
  | .null => true
  | _ => false

/-- Numeric view of a cell (`NaN` for anything non-numeric). -/
def Cell.toNum : Cell → Option ℝ
  | .num x => some x
  | _ => none

/-- NaN-skipping mean of a real column. -/
noncomputable def nanmeanR (xs : List (Option ℝ)) : Option ℝ :=
  let vs := xs.reduceOption
  if vs.length = 0 then none else some (vs.sum / vs.length)

/-- NaN-skipping population variance (`ddof = 0`, as `StandardScaler` uses). -/
noncomputable def nanvarR (xs : List (Option ℝ)) : Option ℝ :=
  (nanmeanR xs).map (fun m =>
    ((xs.reduceOption.map (fun v => (v - m) ^ 2)).sum) / xs.reduceOption.length)

/-- The divisor `StandardScaler` uses for one feature: the square root of the
population variance, a zero scale being replaced by `1`
(`_handle_zeros_in_scale`). -/
noncomputable def scaleOf (xs : List (Option ℝ)) : Option ℝ :=
  (nanvarR xs).map (fun v => if v = 0 then 1 else Real.sqrt v)

/-- `StandardScaler().fit_transform` on one feature column: each non-NaN cell
is mapped to `(x - mean) / scale`, the statistics being fitted on that same
column; NaN cells stay NaN. -/
noncomputable def fitTransform (xs : List (Option ℝ)) : List (Option ℝ) :=
  xs.map (fun x? =>
    match x?, nanmeanR xs, scaleOf xs with
    | some x, some m, some s => some ((x - m) / s)
    | _, _, _ => none)

/-- NaN-propagating weighted combination of the three standardized features:
`0.5 * z(rendement) + 0.3 * z(ph) + 0.2 * z(matiere_organique)`. -/
noncomputable def combineRisk (zy zp zm : List (Option ℝ)) : List (Option ℝ) :=
  (zy.zip (zp.zip zm)).map (fun t =>
    match t.1, t.2.1, t.2.2 with
    | some a, some b, some c => some (0.5 * a + 0.3 * b + 0.2 * c)
    | _, _, _ => none)

/-- A row of the aggregated table returned by `calculate_risk_metrics`. -/
structure RiskGroup where
  parcelle_id : String
  culture : String
  avg_risk_index : Option ℝ
  most_frequent_risk_category : Option RiskCat

/-- Number of occurrences of category `c` in a category column. -/
def catCount (cs : List (Option RiskCat)) (c : RiskCat) : ℕ :=
  cs.countP (fun x => x == some c)

/-- `lambda x: x.mode()[0] if not x.mode().empty else None` on a categorical
column: `Series.mode` drops NaN, and on a categorical series returns the
most frequent categories in ascending category order, so the aggregated value
is the first category in ascending order attaining the maximal count — or
`None` when the group has no non-null category. -/
def catMode (cs : List (Option RiskCat)) : Option RiskCat :=
  if cs.reduceOption.isEmpty then none
  else allCats.find? (fun c =>
    catCount cs c == (allCats.map (catCount cs)).foldl max 0)

/-- Lexicographic order on `(parcelle_id, culture)` keys, the order
`groupby` sorts its groups in. -/
def keyLE (a b : String × String) : Bool :=
  a.1 < b.1 || (a.1 == b.1 && a.2 ≤ b.2)

/-- Insert a key into a list sorted ascending (lexicographic on the pair of
strings). -/
def insertKey (k : String × String) : List (String × String) →
    List (String × String)
  | [] => [k]
  | x :: xs => if keyLE k x then k :: x :: xs else x :: insertKey k xs

/-- Sort keys ascending, as `groupby` orders its groups. -/
def sortKeys (ks : List (String × String)) : List (String × String) :=
  ks.foldr insertKey []

/-- `data.groupby(['parcelle_id', 'culture']).agg(...)` over the three
parallel columns: rows with a non-string (hence NaN-like) key are dropped,
groups are the distinct keys in ascending order, and each group is aggregated
by the NaN-skipping mean of `risk_index` and the categorical mode of
`risk_category`. -/
noncomputable def riskGroupby (keys : List (Option (String × String)))
    (risks : List (Option ℝ)) (cats : List (Option RiskCat)) :
    List RiskGroup :=
  let rows := (keys.zip (risks.zip cats)).filterMap (fun p =>
    p.1.map (fun k => (k, p.2)))
  let ks := sortKeys ((rows.map (fun r => r.1)).dedup)
  ks.map (fun k =>
    let grp := rows.filter (fun r => r.1 == k)
    { parcelle_id := k.1, culture := k.2,
      avg_risk_index := nanmeanR (grp.map (fun r => r.2.1)),
      most_frequent_risk_category := catMode (grp.map (fun r => r.2.2)) })

/-- The non-null-key rows `groupby` works on, paired with their risk and
category cells. -/
def groupRows (keys : List (Option (String × String)))
    (risks : List (Option ℝ)) (cats : List (Option RiskCat)) :
    List ((String × String) × (Option ℝ × Option RiskCat)) :=
  (keys.zip (risks.zip cats)).filterMap (fun p =>
    p.1.map (fun k => (k, p.2)))

/-- The required columns of `calculate_risk_metrics`, in check order. -/
def requiredColumns : List String :=
  ["parcelle_id", "culture", "rendement_estime", "ph", "matiere_organique"]

/-- Group keys taken from the `parcelle_id` and `culture` columns: pandas
groups on the cell values, NaN keys being dropped; the embedding keys groups
on string cells and treats any other cell as a dropped NaN-like key. -/
def keyCells (ps cs : List Cell) : List (Option (String × String)) :=
  (ps.zip cs).map (fun p =>
    match p.1, p.2 with
    | .str a, .str b => some (a, b)
    | _, _ => none)

/-- The `risk_index` column values computed by `calculate_risk_metrics`:
the three feature columns standardized by the scaler fitted on this very
input, combined with the fixed weights. -/
noncomputable def risksOf (df : DF) : List (Option ℝ) :=
  combineRisk (fitTransform ((df.colD "rendement_estime").map Cell.toNum))
    (fitTransform ((df.colD "ph").map Cell.toNum))
    (fitTransform ((df.colD "matiere_organique").map Cell.toNum))

/-- The cells of the appended `risk_index` column. -/
noncomputable def riskIndexCells (df : DF) : List Cell :=
  (risksOf df).map (fun r =>
    match r with
    | some x => Cell.num x
    | none => Cell.null)

/-- The cells of the appended `risk_category` column (`pd.cut` of the risk
index, NaN staying NaN). -/
noncomputable def riskCategoryCells (df : DF) : List Cell :=
  (risksOf df).map (fun r =>
    match r with
    | some x => Cell.catg (riskCut x)
    | none => Cell.null)

/-- The body of `calculate_risk_metrics` up to its `except` handler: check
the required columns in order (raising `KeyError` at the first missing one),
standardize the three numeric columns with a scaler fitted on this very
input, append the `risk_index` and `risk_category` columns to the input
table, and aggregate per `(parcelle_id, culture)`. The returned pair is
(the caller's table after the in-place column assignments, aggregate). -/
noncomputable def calculateRiskMetricsCore (df : DF) :
    Except String (DF × List RiskGroup) :=
  match requiredColumns.find? (fun c => !(df.names.contains c)) with
  | some c => .error ("Colonne requise manquante : " ++ c)
  | none =>
    if !((df.colD "rendement_estime") ++ df.colD "ph"
        ++ df.colD "matiere_organique").all numericOk then
      .error "could not convert string to float"
    else if (df.colD "rendement_estime").length = 0 then
      .error "Found array with 0 sample(s)"
    else
      let df' := (df.setCol "risk_index" (riskIndexCells df)).setCol
        "risk_category" (riskCategoryCells df)
      let keys := keyCells (df.colD "parcelle_id") (df.colD "culture")
      .ok (df', riskGroupby keys (risksOf df)
        ((risksOf df).map (Option.map riskCut)))

/-- `calculate_risk_metrics`: the body above inside `try/except`, printing
and returning `None` on any exception. The first component is the caller's
table after the call (mutated only when the body got past its checks). -/
noncomputable def calculateRiskMetrics (df : DF) : DF × Option (List RiskGroup) :=
  match calculateRiskMetricsCore df with
  | .ok (df', g) => (df', some g)
  | .error _ => (df, none)

/-! ## Temporal analyzer (`get_temporal_patterns`) -/

/-- A row of the persisted feature table (`data/features.csv`) as
`prepare_features` writes it: monitoring fields, the matched weather cells,
and the left-joined soil and yield attributes (null when unmatched). -/
structure FeatRow where
  parcelle_id : String
  fdate : ℤ
  ndvi : Option ℚ
  culture : String
  latitude : ℚ
  longitude : ℚ
  weatherVals : List (Option ℚ)
  ph : Option ℚ
  matiere_organique : Option ℚ
  rendement_estime : Option ℚ
deriving DecidableEq

/-- Insert a row into a list sorted ascending by date (stable). -/
def insertByDate (r : FeatRow) : List FeatRow → List FeatRow
  | [] => [r]
  | x :: xs => if r.fdate < x.fdate then r :: x :: xs else x :: insertByDate r xs

/-- `parcelle_data.sort_values(by='date')`. -/
def sortByDate (l : List FeatRow) : List FeatRow :=
  l.foldr insertByDate []

/-- The weights of the centred moving-average filter `seasonal_decompose`
uses for the even period 12: `[1/24, 1/12 … 1/12, 1/24]` of length 13. -/
def maWeight (j : ℕ) : ℚ :=
  if j = 0 ∨ j = 12 then 1 / 24 else 1 / 12

/-- The two-sided convolution trend of `seasonal_decompose(..., period=12)`
at position `i`: defined only when the full 13-point window fits
(`6 ≤ i` and `i + 6 < n`), NaN at the edges. -/
def trendAt (xs : List ℚ) (i : ℕ) : Option ℚ :=
  if 6 ≤ i ∧ i + 6 < xs.length then
    some (((List.range 13).map (fun j => maWeight j * xs.getD (i - 6 + j) 0)).sum)
  else none

/-- The detrended series `x - trend` (NaN where the trend is NaN). -/
def detrendAt (xs : List ℚ) (i : ℕ) : Option ℚ :=
  (trendAt xs i).map (fun t => xs.getD i 0 - t)

/-- Raw seasonal period average for phase `k` (`0 ≤ k < 12`): the
NaN-skipping mean of the detrended values at positions congruent to `k`
modulo 12. -/
def pavgRaw (xs : List ℚ) (k : ℕ) : Option ℚ :=
  nanmean (((List.range xs.length).filter (fun i => i % 12 = k)).map
    (detrendAt xs))

/-- The mean of the twelve period averages (`period_averages.mean()`,
NaN-propagating as `np.mean` is). -/
def pavgMean (xs : List ℚ) : Option ℚ :=
  let l := (List.range 12).map (pavgRaw xs)
  if l.all Option.isSome then some (l.reduceOption.sum / 12) else none

/-- The seasonal component at position `i`: the phase average recentred to
mean zero. -/
def seasonalAt (xs : List ℚ) (i : ℕ) : Option ℚ :=
  match pavgRaw xs (i % 12), pavgMean xs with
  | some p, some m => some (p - m)
  | _, _ => none

/-- The residual `x - trend - seasonal` at position `i`. -/
def residAt (xs : List ℚ) (i : ℕ) : Option ℚ :=
  match detrendAt xs i, seasonalAt xs i with
  | some d, some s => some (d - s)
  | _, _ => none

/-- `statsmodels` `seasonal_decompose(series, model='additive', period=12)`:
raises (here: `none`) when the series has fewer than two complete cycles
(24 observations); otherwise returns the trend, seasonal and residual
components, aligned with the input, NaN at undefined positions. -/
def seasonalDecompose12 (xs : List ℚ) :
    Option (List (Option ℚ) × List (Option ℚ) × List (Option ℚ)) :=
  if xs.length < 24 then none
  else some ((List.range xs.length).map (trendAt xs),
    (List.range xs.length).map (seasonalAt xs),
    (List.range xs.length).map (residAt xs))

/-- Ordinary-least-squares slope of `y` against `x` (what
`LinearRegression().fit` computes on one feature); the degenerate
all-equal-`x` case divides by zero, which in `ℚ` yields the same `0`
coefficient the pseudo-inverse produces. -/
def olsSlope (pts : List (ℚ × ℚ)) : ℚ :=
  let n : ℚ := pts.length
  let sx := (pts.map (fun p => p.1)).sum
  let sy := (pts.map (fun p => p.2)).sum
  let sxx := (pts.map (fun p => p.1 * p.1)).sum
  let sxy := (pts.map (fun p => p.1 * p.2)).sum
  (n * sxy - sx * sy) / (n * sxx - sx * sx)

/-- Ordinary-least-squares intercept. -/
def olsIntercept (pts : List (ℚ × ℚ)) : ℚ :=
  let n : ℚ := pts.length
  ((pts.map (fun p => p.2)).sum - olsSlope pts * (pts.map (fun p => p.1)).sum) / n

/-- 30-observation trailing moving average, the first 29 positions dropped
(`rolling(window=30).mean().dropna()`). -/
def movingAvg30 (series : List (ℤ × ℚ)) : List (ℤ × ℚ) :=
  (List.range series.length).filterMap (fun i =>
    if 29 ≤ i then
      some ((series.getD i (0, 0)).1,
        (((List.range 30).map (fun j => (series.getD (i - 29 + j) (0, 0)).2)).sum) / 30)
    else none)

/-- `Series.std()` (sample standard deviation, `ddof = 1`; NaN on a
singleton). -/
noncomputable def sampleStd (xs : List ℚ) : Option ℝ :=
  if xs.length ≤ 1 then none
  else
    some (Real.sqrt (((xs.map (fun v => ((v : ℝ) - (xs.sum : ℚ) / (xs.length : ℚ)) ^ 2)).sum) /
      ((xs.length : ℝ) - 1)))

/-- The `history` dictionary returned by `get_temporal_patterns`: the
decomposition components (`trend` and `resid` after `dropna`, `seasonal` as
is), the 30-day moving average, and the summary statistics — each series
carrying its date index. -/
structure TemporalHistory where
  ndvi_trend : List (ℤ × ℚ)
  ndvi_seasonal : List (ℤ × Option ℚ)
  ndvi_residual : List (ℤ × ℚ)
  ndvi_moving_avg : List (ℤ × ℚ)
  mean_ndvi : ℚ
  std_ndvi : Option ℝ
  min_ndvi : Option ℚ
  max_ndvi : Option ℚ

/-- The `trend` dictionary returned by `get_temporal_patterns`. -/
structure TrendFit where
  pente : ℚ
  intercept : ℚ
  variation_moyenne : ℚ

/-- `get_temporal_patterns(parcelle_id)` on a given persisted feature table:
filter to the parcel, fail on an empty selection, sort by date, drop missing
NDVI values, fail when fewer than 12 remain, decompose seasonally (which
itself needs 24), then fit the linear trend on the ordinal dates of *all*
parcel rows against the *non-null* NDVI values — a length mismatch (any
null NDVI among the parcel rows) makes `LinearRegression.fit` raise. All
failures are caught and become `none` (`return None, None`). -/
noncomputable def getTemporalPatterns (features : List FeatRow) (pid : String) :
    Option (TemporalHistory × TrendFit) :=
  let pdat := features.filter (fun r => r.parcelle_id == pid)
  if pdat.isEmpty then none
  else
    let sorted := sortByDate pdat
    let series := sorted.filterMap (fun r => r.ndvi.map (fun v => (r.fdate, v)))
    if series.length < 12 then none
    else
      match seasonalDecompose12 (series.map (fun p => p.2)) with
      | none => none
      | some (tr, se, re) =>
        if sorted.length ≠ series.length then none
        else
          let vals := series.map (fun p => p.2)
          let dates := series.map (fun p => p.1)
          let pts := series.map (fun p => ((p.1 : ℚ), p.2))
          let slope := olsSlope pts
          let m := vals.sum / vals.length
          some
            ({ ndvi_trend := (dates.zip tr).filterMap (fun p =>
                  p.2.map (fun v => (p.1, v))),
               ndvi_seasonal := dates.zip se,
               ndvi_residual := (dates.zip re).filterMap (fun p =>
                  p.2.map (fun v => (p.1, v))),
               ndvi_moving_avg := movingAvg30 series,
               mean_ndvi := m,
               std_ndvi := sampleStd vals,
               min_ndvi := listMin vals,
               max_ndvi := listMax vals },
             { pente := slope,
               intercept := olsIntercept pts,
               variation_moyenne := if m ≠ 0 then slope / m else 0 })

/-! ## Pipeline stages and their fault behaviour -/

/-- A row of the soil table (`sols.csv`). -/
structure SoilRow where
  parcelle_id : String
  ph : Option ℚ
  matiere_organique : Option ℚ
deriving DecidableEq

/-- A row of the yield-history table (`historique_rendements.csv`). -/
structure YieldRow where
  parcelle_id : String
  ydate : ℤ
  rendement_estime : Option ℚ
deriving DecidableEq

/-- Insert a monitoring row into a list sorted ascending by date (stable). -/
def insertMByDate (r : MRow) : List MRow → List MRow
  | [] => [r]
  | x :: xs => if r.mdate < x.mdate then r :: x :: xs else x :: insertMByDate r xs

/-- `monitoring_data.sort_values(by='date')`. -/
def sortMByDate (l : List MRow) : List MRow :=
  l.foldr insertMByDate []

/-- Row order `sort_values(by='date')` on a `NaT`-capable date column:
valid dates ascending, `NaT` rows last. -/
def dateBefore (a b : Option ℚ) : Bool :=
  match a, b with
  | some x, some y => x < y
  | some _, none => true
  | _, _ => false

/-- Insert an index into a list of indices sorted by date (stable). -/
def insertWIdx (dates : List (Option ℚ)) (i : ℕ) : List ℕ → List ℕ
  | [] => [i]
  | j :: js =>
    if dateBefore (dates.getD i none) (dates.getD j none) then i :: j :: js
    else j :: insertWIdx dates i js

/-- `weather_data.sort_values(by='date')`: reorder all columns by the date
order. -/
def sortWTable (w : WTable) : WTable :=
  let ord := (List.range w.date.length).foldr (insertWIdx w.date) []
  { date := ord.map (fun i => w.date.getD i none),
    cols := w.cols.map (fun c => (c.1, ord.map (fun i => c.2.getD i none))) }

/-- The weather cells of the row at index `idx` (one cell per column). -/
def wRowVals (w : WTable) (idx : ℕ) : List (Option ℚ) :=
  w.cols.map (fun c => c.2.getD idx none)

/-- The body of `prepare_features` after the two sorts: the as-of merge (which
raises when the weather key column contains `NaT`), the left join with soil on
`parcelle_id`, the left join with yield history on `(parcelle_id, date)` —
pandas left joins emit one row per matching right row and a null-padded row
when nothing matches — and the duplicate-column cleanup, which the typed
`FeatRow` absorbs (monitoring-side `latitude`/`longitude`/`culture` kept). -/
def prepareFeatures (ms : List MRow) (w : WTable) (soil : List SoilRow)
    (ys : List YieldRow) : Option (List FeatRow) :=
  if !(w.date.all Option.isSome) then none
  else
    let msorted := sortMByDate ms
    let wsorted := sortWTable w
    let wdates := wsorted.date.reduceOption
    some ((mergeAsofNearest msorted wdates).flatMap (fun p =>
      let m := p.1
      let wv := (p.2.bind (fun d =>
        (wsorted.date.findIdx? (fun x => x == some d)).map
          (wRowVals wsorted))).getD (w.cols.map (fun _ => none))
      let soilOpts : List (Option ℚ × Option ℚ) :=
        match soil.filter (fun s => s.parcelle_id == m.parcelle_id) with
        | [] => [(none, none)]
        | l => l.map (fun s => (s.ph, s.matiere_organique))
      soilOpts.flatMap (fun sv =>
        let yOpts : List (Option ℚ) :=
          match ys.filter (fun y =>
              y.parcelle_id == m.parcelle_id && y.ydate == m.mdate) with
          | [] => [none]
          | l => l.map (fun y => y.rendement_estime)
        yOpts.map (fun rv =>
          { parcelle_id := m.parcelle_id, fdate := m.mdate, ndvi := m.ndvi,
            culture := m.culture, latitude := m.latitude,
            longitude := m.longitude, weatherVals := wv,
            ph := sv.1, matiere_organique := sv.2,
            rendement_estime := rv }))))

/-- The mutable state of an `AgriculturalDataManager` instance: the four
tables, each possibly still unset (`None`). -/
structure AgriState where
  monitoring : Option (List MRow)
  weather : Option WTable
  soil : Option (List SoilRow)
  yieldHist : Option (List YieldRow)

/-- The data directory `load_data` reads from: each CSV file is either
present with its parsed content or missing. -/
structure Env where
  monitoringFile : Option (List MRow)
  weatherFile : Option WTable
  soilFile : Option (List SoilRow)
  yieldFile : Option (List YieldRow)

/-- `load_data`: reads the four files in order inside a `try/except` that
catches every exception, so a missing file leaves that table and the
following ones unset and the method still returns normally. -/
def loadData (env : Env) (s : AgriState) : Except String AgriState :=
  .ok (match env.monitoringFile with
    | none => s
    | some m =>
      match env.weatherFile with
      | none => { s with monitoring := some m }
      | some w =>
        match env.soilFile with
        | none => { s with monitoring := some m, weather := some w }
        | some so =>
          match env.yieldFile with
          | none =>
            { s with
              monitoring := some m
              weather := some w
              soil := some so }
          | some y =>
            { s with
              monitoring := some m
              weather := some w
              soil := some so
              yieldHist := some y })

/-- `clean_data`: `self.weather_data['rayonnement_solaire'] =
self.weather_data['rayonnement_solaire'].abs()` — the only stage with **no**
exception handler: an unset weather table or a missing column raises out of
the method. `Series.abs` maps NaN to NaN. -/
def cleanData (s : AgriState) : Except String AgriState :=
  match s.weather with
  | none => .error "TypeError: 'NoneType' object is not subscriptable"
  | some w =>
    if (w.cols.find? (fun p => p.1 == "rayonnement_solaire")).isNone then
      .error "KeyError: 'rayonnement_solaire'"
    else
      .ok { s with weather := some { w with cols := w.cols.map (fun p =>
        if p.1 == "rayonnement_solaire" then (p.1, p.2.map (Option.map abs))
        else p) } }

/-- `meteo_data_hourly_to_daily`: the resampling body inside a `try/except`
— an unset weather table raises inside the `try` and is caught, leaving the
state unchanged. -/
def meteoStage (s : AgriState) : Except String AgriState :=
  .ok (match s.weather with
    | none => s
    | some w => { s with weather := some (resampleDaily w) })

/-- `prepare_features`: sorts are assigned back to the instance fields, then
the merge pipeline runs; every exception (unset tables, null merge keys) is
caught and the method returns `None`. -/
def prepareFeaturesStage (s : AgriState) :
    Except String (AgriState × Option (List FeatRow)) :=
  .ok (match s.monitoring, s.weather, s.soil, s.yieldHist with
    | some m, some w, some so, some y =>
      ({ s with
         monitoring := some (sortMByDate m)
         weather := some (sortWTable w) },
       prepareFeatures m w so y)
    | _, _, _, _ => (s, none))

/-- `get_temporal_patterns` as a stage: re-reads the persisted feature file
(missing file ⇒ exception ⇒ caught ⇒ `None, None`), everything else is the
caught body `getTemporalPatterns`. -/
noncomputable def getTemporalPatternsStage (featFile : Option (List FeatRow))
    (pid : String) : Except String (Option (TemporalHistory × TrendFit)) :=
  .ok (match featFile with
    | none => none
    | some f => getTemporalPatterns f pid)

/-- `calculate_risk_metrics` as a stage: the caught body
`calculateRiskMetrics`. -/
noncomputable def calcRiskStage (df : DF) :
    Except String (DF × Option (List RiskGroup)) :=
  .ok (calculateRiskMetrics df)

/-- Spec-side mean of a column, per the spec's words (the statistics are
"computed from that same input table"). -/
noncomputable def specMean (xs : List ℝ) : ℝ := xs.sum / xs.length

/-- Spec-side variance of a column (population variance of that same input
table). -/
noncomputable def specVar (xs : List ℝ) : ℝ :=
  ((xs.map (fun v => (v - specMean xs) ^ 2)).sum) / xs.length

/-- Spec-side standardization `z`: the zero-mean unit-variance
standardization whose mean and variance come from the column itself. -/
noncomputable def specZ (xs : List ℝ) (x : ℝ) : ℝ :=
  (x - specMean xs) / Real.sqrt (specVar xs)

/-- Spec-side risk index of row `i`:
`0.5·z(rendement_estime) + 0.3·z(ph) + 0.2·z(matiere_organique)`. -/
noncomputable def specRiskIndex (ys ps ms : List ℝ) (i : ℕ) : ℝ :=
  0.5 * specZ ys (ys.getD i 0) + 0.3 * specZ ps (ps.getD i 0) +
    0.2 * specZ ms (ms.getD i 0)

/-- The numeric values of a column. -/
def colNums (df : DF) (n : String) : List ℝ :=
  (df.colD n).filterMap Cell.toNum

/-- Spec-side view of one group's `risk_index` values: the risk cells of the
input rows carrying exactly that key. -/
def groupRisks (keys : List (Option (String × String)))
    (risks : List (Option ℝ)) (k : String × String) : List (Option ℝ) :=
  ((keys.zip risks).filter (fun p => p.1 == some k)).map (fun p => p.2)

/-- Spec-side view of one group's `risk_category` values. -/
def groupCats (keys : List (Option (String × String)))
    (cats : List (Option RiskCat)) (k : String × String) :
    List (Option RiskCat) :=
  ((keys.zip cats).filter (fun p => p.1 == some k)).map (fun p => p.2)

/-- The per-parcel NDVI series `get_temporal_patterns` works on: the parcel
rows sorted by date, missing NDVI dropped, each point carrying its date. -/
def seriesOf (features : List FeatRow) (pid : String) : List (ℤ × ℚ) :=
  (sortByDate (features.filter (fun r => r.parcelle_id == pid))).filterMap
    (fun r => r.ndvi.map (fun v => (r.fdate, v)))

/-- The `history` value `get_temporal_patterns` returns on its success
path (see `getTemporalPatterns`). -/
noncomputable def histOf (features : List FeatRow) (pid : String) :
    TemporalHistory :=
  { ndvi_trend := (((seriesOf features pid).map (fun p => p.1)).zip
      ((List.range ((seriesOf features pid).map (fun p => p.2)).length).map
        (trendAt ((seriesOf features pid).map (fun p => p.2))))).filterMap
      (fun p => p.2.map (fun v => (p.1, v))),
    ndvi_seasonal := ((seriesOf features pid).map (fun p => p.1)).zip
      ((List.range ((seriesOf features pid).map (fun p => p.2)).length).map
        (seasonalAt ((seriesOf features pid).map (fun p => p.2)))),
    ndvi_residual := (((seriesOf features pid).map (fun p => p.1)).zip
      ((List.range ((seriesOf features pid).map (fun p => p.2)).length).map
        (residAt ((seriesOf features pid).map (fun p => p.2))))).filterMap
      (fun p => p.2.map (fun v => (p.1, v))),
    ndvi_moving_avg := movingAvg30 (seriesOf features pid),
    mean_ndvi := ((seriesOf features pid).map (fun p => p.2)).sum
      / ((seriesOf features pid).map (fun p => p.2)).length,
    std_ndvi := sampleStd ((seriesOf features pid).map (fun p => p.2)),
    min_ndvi := listMin ((seriesOf features pid).map (fun p => p.2)),
    max_ndvi := listMax ((seriesOf features pid).map (fun p => p.2)) }

/-- The `trend` value `get_temporal_patterns` returns on its success path. -/
noncomputable def fitOf (features : List FeatRow) (pid : String) : TrendFit :=
  { pente := olsSlope ((seriesOf features pid).map
      (fun p => (((p.1 : ℚ)), p.2))),
    intercept := olsIntercept ((seriesOf features pid).map
      (fun p => (((p.1 : ℚ)), p.2))),
    variation_moyenne := if (((seriesOf features pid).map (fun p => p.2)).sum
        / ((seriesOf features pid).map (fun p => p.2)).length) ≠ 0 then
      olsSlope ((seriesOf features pid).map (fun p => (((p.1 : ℚ)), p.2)))
        / (((seriesOf features pid).map (fun p => p.2)).sum
          / ((seriesOf features pid).map (fun p => p.2)).length)
    else 0 }

/-! ## Theorems -/

/-- C2: for every value processed by `calculate_risk_metrics`, the category
assigned by its `pd.cut` is determined by fixed right-closed thresholds on
`risk_index`: `x ≤ -1` gets the lowest category, `-1 < x ≤ 0` the second,
`0 < x ≤ 1` the third and `x > 1` the highest; in particular `x = 0` maps to
the second ("Bas"/Low) and `x = 1` to the third ("Modéré"/Moderate). -/
theorem c2_risk_category_thresholds (x : ℝ) :
    (riskCut x = RiskCat.tresBas ↔ x ≤ -1) ∧
    (riskCut x = RiskCat.bas ↔ -1 < x ∧ x ≤ 0) ∧
    (riskCut x = RiskCat.modere ↔ 0 < x ∧ x ≤ 1) ∧
    (riskCut x = RiskCat.eleve ↔ 1 < x) ∧
    riskCut 0 = RiskCat.bas ∧ riskCut 1 = RiskCat.modere := by
  have h0 : riskCut 0 = RiskCat.bas := by unfold riskCut; norm_num
  have h1 : riskCut 1 = RiskCat.modere := by unfold riskCut; norm_num
  refine ⟨?_, ?_, ?_, ?_, h0, h1⟩ <;>
    (unfold riskCut; split_ifs with ha hb hc <;> simp <;>
      first
        | linarith
        | (constructor <;> linarith)
        | (constructor <;> intro <;> linarith)
        | (intro <;> linarith))

/-- C5 (amended): every stage-level pipeline operation except `clean_data`
catches its own faults and returns normally (an absent/empty result inside
an `ok`) on every input state; `clean_data` alone has no handler. -/
theorem c5_stages_catch_their_faults :
    (∀ env s, ∃ s', loadData env s = .ok s') ∧
    (∀ s, ∃ s', meteoStage s = .ok s') ∧
    (∀ s, ∃ r, prepareFeaturesStage s = .ok r) ∧
    (∀ f pid, ∃ r, getTemporalPatternsStage f pid = .ok r) ∧
    (∀ df, ∃ r, calcRiskStage df = .ok r) :=
  ⟨fun _ _ => ⟨_, rfl⟩, fun _ => ⟨_, rfl⟩, fun _ => ⟨_, rfl⟩,
   fun _ _ => ⟨_, rfl⟩, fun _ => ⟨_, rfl⟩⟩

/-- C5 (counterexample): `clean_data` does *not* catch its faults — on the
freshly constructed manager state (no table loaded yet) it raises, and the
exception propagates to the caller, contradicting the claim that every
stage-level operation returns an absent/empty result instead of raising. -/
theorem c5_clean_data_propagates :
    cleanData ⟨none, none, none, none⟩ =
      .error "TypeError: 'NoneType' object is not subscriptable" := rfl

/-- Invariant of the fold inside `nearestDate`: starting from a current best
candidate, the fold returns a candidate that is among the remaining dates or
the current best, and whose distance to `d` is minimal among both. -/
theorem nearestDate_foldl_spec (d : ℚ) :
    ∀ (ws : List ℚ) (b : ℚ), ∃ c,
      (ws.foldl (fun acc w =>
        match acc with
        | none => some w
        | some b' => if |w - d| < |b' - d| then some w else some b') (some b))
        = some c ∧
      (c ∈ ws ∨ c = b) ∧ |c - d| ≤ |b - d| ∧ ∀ w ∈ ws, |c - d| ≤ |w - d| := by
  intro ws
  induction ws with
  | nil => exact fun b => ⟨b, rfl, Or.inr rfl, le_refl _, by simp⟩
  | cons w ws ih =>
    intro b
    by_cases hlt : |w - d| < |b - d|
    · obtain ⟨c, hc, hmem, hle, hmin⟩ := ih w
      refine ⟨c, ?_, ?_, ?_, ?_⟩
      · simpa [List.foldl_cons, if_pos hlt] using hc
      · rcases hmem with h | h
        · exact Or.inl (List.mem_cons_of_mem _ h)
        · exact Or.inl (h ▸ List.mem_cons_self _ _)
      · exact le_trans hle (le_of_lt hlt)
      · intro w' hw'
        rcases List.mem_cons.mp hw' with h | h
        · exact h ▸ hle
        · exact hmin w' h
    · obtain ⟨c, hc, hmem, hle, hmin⟩ := ih b
      refine ⟨c, ?_, ?_, hle, ?_⟩
      · simpa [List.foldl_cons, if_neg hlt] using hc
      · rcases hmem with h | h
        · exact Or.inl (List.mem_cons_of_mem _ h)
        · exact Or.inr h
      · intro w' hw'
        rcases List.mem_cons.mp hw' with h | h
        · exact h ▸ le_trans hle (not_lt.mp hlt)
        · exact hmin w' h

/-- C4: in `prepare_features`, the as-of merge pairs every monitoring row
with a weather row whose date is closest in absolute distance among all
weather dates (nearest in either direction, not a backward-only fill);
in particular a monitoring row at day 10 with weather rows at days 8 and 13
is paired with day 8. -/
theorem c4_merge_asof_picks_nearest (ms : List MRow) (ws : List ℚ)
    (hw : ws ≠ []) :
    (∀ p ∈ mergeAsofNearest ms ws, ∃ c, p.2 = some c ∧ c ∈ ws ∧
      ∀ w ∈ ws, |c - (p.1.mdate : ℚ)| ≤ |w - (p.1.mdate : ℚ)|) ∧
    nearestDate 10 [8, 13] = some 8 := by
  constructor
  · intro p hp
    obtain ⟨m, _, rfl⟩ := List.mem_map.mp hp
    cases ws with
    | nil => exact absurd rfl hw
    | cons w ws' =>
      obtain ⟨c, hc, hmem, hle, hmin⟩ :=
        nearestDate_foldl_spec (m.mdate : ℚ) ws' w
      refine ⟨c, ?_, ?_, ?_⟩
      · simpa [nearestDate, List.foldl_cons] using hc
      · rcases hmem with h | h
        · exact List.mem_cons_of_mem _ h
        · exact h ▸ List.mem_cons_self _ _
      · intro w' hw'
        rcases List.mem_cons.mp hw' with h | h
        · exact h ▸ hle
        · exact hmin w' h
  · norm_num [nearestDate]

/-- Witness for C4 at a concrete input. -/
theorem c4_merge_asof_picks_nearest_witness :
    (∀ p ∈ mergeAsofNearest [⟨"P1", 10, none, "ble", 0, 0⟩] [8, 13],
      ∃ c, p.2 = some c ∧ c ∈ [(8 : ℚ), 13] ∧
        ∀ w ∈ [(8 : ℚ), 13], |c - (p.1.mdate : ℚ)| ≤ |w - (p.1.mdate : ℚ)|) ∧
    nearestDate 10 [8, 13] = some 8 :=
  c4_merge_asof_picks_nearest [⟨"P1", 10, none, "ble", 0, 0⟩] [8, 13]
    (by decide)

/-- C6: on any input table that has the `parcelle_id`, `culture` and
`rendement_estime` columns but lacks `ph`, `calculate_risk_metrics` raises a
missing-column `KeyError` naming `ph` (the first absent required column in
check order, whatever the status of `matiere_organique`), the caught
exception making the operation return an absent result instead of an
aggregated table. -/
theorem c6_missing_ph_column (df : DF)
    (h1 : "parcelle_id" ∈ df.names) (h2 : "culture" ∈ df.names)
    (h3 : "rendement_estime" ∈ df.names) (h4 : "ph" ∉ df.names) :
    calculateRiskMetricsCore df = .error ("Colonne requise manquante : " ++ "ph") ∧
    (calculateRiskMetrics df).2 = none := by
  have hfind : requiredColumns.find? (fun c => !(df.names.contains c))
      = some "ph" := by
    simp [requiredColumns, List.find?, h1, h2, h3, h4]
  constructor
  · unfold calculateRiskMetricsCore
    rw [hfind]
  · unfold calculateRiskMetrics calculateRiskMetricsCore
    rw [hfind]

/-- Witness for C6 at a concrete three-column table. -/
theorem c6_missing_ph_column_witness :
    calculateRiskMetricsCore
        ⟨[("parcelle_id", [Cell.str "P1"]), ("culture", [Cell.str "ble"]),
          ("rendement_estime", [Cell.num 1])]⟩
      = .error ("Colonne requise manquante : " ++ "ph") ∧
    (calculateRiskMetrics
        ⟨[("parcelle_id", [Cell.str "P1"]), ("culture", [Cell.str "ble"]),
          ("rendement_estime", [Cell.num 1])]⟩).2 = none :=
  c6_missing_ph_column _ (by simp [DF.names]) (by simp [DF.names])
    (by simp [DF.names]) (by simp [DF.names])

/-- Dropping the `some` wrappers of an all-`some` list. -/
theorem reduceOption_map_somes {β γ : Type} (l : List β) (g : β → γ) :
    (l.map (fun x => some (g x))).reduceOption = l.map g := by
  induction l with
  | nil => rfl
  | cons a l ih => simp [List.reduceOption_cons_of_some, ih]

/-- Invariant of the fold inside `listMin`. -/
theorem listMin_foldl_spec {α : Type} [LinearOrder α] (xs : List α) :
    ∀ b : α, ∃ m,
      (xs.foldl (fun acc x => match acc with
        | none => some x
        | some a => some (min a x)) (some b)) = some m ∧
      (m = b ∨ m ∈ xs) ∧ m ≤ b ∧ ∀ x ∈ xs, m ≤ x := by
  induction xs with
  | nil => exact fun b => ⟨b, rfl, Or.inl rfl, le_refl _, by simp⟩
  | cons x xs ih =>
    intro b
    obtain ⟨m, hm, hmem, hle, hmin⟩ := ih (min b x)
    refine ⟨m, hm, ?_, le_trans hle (min_le_left _ _), ?_⟩
    · rcases hmem with h | h
      · rcases min_choice b x with hc | hc
        · exact Or.inl (h.trans hc)
        · exact Or.inr ((h.trans hc) ▸ List.mem_cons_self _ _)
      · exact Or.inr (List.mem_cons_of_mem _ h)
    · intro y hy
      rcases List.mem_cons.mp hy with h | h
      · exact h ▸ le_trans hle (min_le_right _ _)
      · exact hmin y h

/-- Invariant of the fold inside `listMax`. -/
theorem listMax_foldl_spec {α : Type} [LinearOrder α] (xs : List α) :
    ∀ b : α, ∃ m,
      (xs.foldl (fun acc x => match acc with
        | none => some x
        | some a => some (max a x)) (some b)) = some m ∧
      (m = b ∨ m ∈ xs) ∧ b ≤ m ∧ ∀ x ∈ xs, x ≤ m := by
  induction xs with
  | nil => exact fun b => ⟨b, rfl, Or.inl rfl, le_refl _, by simp⟩
  | cons x xs ih =>
    intro b
    obtain ⟨m, hm, hmem, hle, hmax⟩ := ih (max b x)
    refine ⟨m, hm, ?_, le_trans (le_max_left _ _) hle, ?_⟩
    · rcases hmem with h | h
      · rcases max_choice b x with hc | hc
        · exact Or.inl (h.trans hc)
        · exact Or.inr ((h.trans hc) ▸ List.mem_cons_self _ _)
      · exact Or.inr (List.mem_cons_of_mem _ h)
    · intro y hy
      rcases List.mem_cons.mp hy with h | h
      · exact h ▸ le_trans (le_max_right _ _) hle
      · exact hmax y h

/-- On a non-empty list, `listMin` returns a member below every member. -/
theorem listMin_spec {α : Type} [LinearOrder α] (xs : List α) (h : xs ≠ []) :
    ∃ m, listMin xs = some m ∧ m ∈ xs ∧ ∀ x ∈ xs, m ≤ x := by
  cases xs with
  | nil => exact absurd rfl h
  | cons x xs =>
    obtain ⟨m, hm, hmem, hle, hmin⟩ := listMin_foldl_spec xs x
    refine ⟨m, hm, ?_, ?_⟩
    · rcases hmem with h | h
      · exact h ▸ List.mem_cons_self _ _
      · exact List.mem_cons_of_mem _ h
    · intro y hy
      rcases List.mem_cons.mp hy with h | h
      · exact h ▸ hle
      · exact hmin y h

/-- On a non-empty list, `listMax` returns a member above every member. -/
theorem listMax_spec {α : Type} [LinearOrder α] (xs : List α) (h : xs ≠ []) :
    ∃ m, listMax xs = some m ∧ m ∈ xs ∧ ∀ x ∈ xs, x ≤ m := by
  cases xs with
  | nil => exact absurd rfl h
  | cons x xs =>
    obtain ⟨m, hm, hmem, hle, hmax⟩ := listMax_foldl_spec xs x
    refine ⟨m, hm, ?_, ?_⟩
    · rcases hmem with h | h
      · exact h ▸ List.mem_cons_self _ _
      · exact List.mem_cons_of_mem _ h
    · intro y hy
      rcases List.mem_cons.mp hy with h | h
      · exact h ▸ hle
      · exact hmax y h

/-- A day on which no valid date falls collects no cells. -/
theorem cellsOnDay_nil (dates vals : List (Option ℚ)) (d : ℤ)
    (h : ∀ q : ℚ, some q ∈ dates → dayOf q ≠ d) :
    cellsOnDay dates vals d = [] := by
  rw [cellsOnDay, List.filterMap_eq_nil_iff]
  rintro ⟨pa, pb⟩ hp
  cases pa with
  | none => rfl
  | some q =>
    have hqd : some q ∈ dates := (List.mem_zip hp).1
    simp [h q hqd]

/-- On consecutive integral daily dates, exactly the `j`-th cell falls on day
`a + j`. -/
theorem cellsOnDay_consec :
    ∀ (vals : List (Option ℚ)) (a : ℤ) (j : ℕ), j < vals.length →
      cellsOnDay ((List.range vals.length).map
          (fun (i : ℕ) => some ((a + (i : ℤ) : ℤ) : ℚ))) vals (a + j)
        = [vals.getD j none] := by
  intro vals
  induction vals with
  | nil => intro a j hj; exact absurd hj (by simp)
  | cons v vs ih =>
    intro a j hj
    have hdates : (List.range (vs.length + 1)).map
        (fun (i : ℕ) => some ((a + (i : ℤ) : ℤ) : ℚ))
        = some ((a : ℚ)) :: (List.range vs.length).map
            (fun (i : ℕ) => some (((a + 1) + (i : ℤ) : ℤ) : ℚ)) := by
      rw [List.range_succ_eq_map, List.map_cons, List.map_map]
      refine congrArg₂ _ (by norm_num) (List.map_congr_left ?_)
      intro i _
      simp only [Function.comp]
      norm_num
      ring
    rw [List.length_cons, hdates]
    rw [show cellsOnDay (some ((a : ℚ)) :: (List.range vs.length).map
          (fun (i : ℕ) => some (((a + 1) + (i : ℤ) : ℤ) : ℚ))) (v :: vs) (a + j)
        = (if dayOf ((a : ℚ)) = a + j then [v] else []) ++
          cellsOnDay ((List.range vs.length).map
            (fun (i : ℕ) => some (((a + 1) + (i : ℤ) : ℤ) : ℚ))) vs (a + j) from by
      simp only [cellsOnDay, List.zip_cons_cons, List.filterMap_cons]
      by_cases hcc : dayOf ((a : ℚ)) = a + (j : ℤ) <;> simp [hcc]]
    have hday : dayOf ((a : ℚ)) = a := Int.floor_intCast a
    cases j with
    | zero =>
      rw [if_pos (by rw [hday]; norm_num)]
      rw [cellsOnDay_nil _ _ _ ?_]
      · simp
      · intro q hq
        obtain ⟨i, _, hqe⟩ := List.mem_map.mp hq
        have hqv : ((((a + 1) + (i : ℤ) : ℤ) : ℚ)) = q := Option.some.inj hqe
        rw [← hqv, dayOf, Int.floor_intCast]
        omega
    | succ j' =>
      rw [if_neg (by rw [hday]; omega)]
      rw [show ((a : ℤ) + ((j' + 1 : ℕ) : ℤ)) = ((a + 1) + ((j' : ℕ) : ℤ)) from by
        push_cast; ring]
      rw [ih (a + 1) j' (by simpa using hj)]
      simp

/-- The mean of a one-observation day is that observation. -/
theorem nanmean_singleton (x : Option ℚ) : nanmean [x] = x := by
  cases x <;> simp [nanmean, List.reduceOption]

/-- Reading a list back off by positions. -/
theorem map_range_getD {β : Type} (l : List β) (x : β) :
    (List.range l.length).map (fun j => l.getD j x) = l := by
  induction l with
  | nil => rfl
  | cons v vs ih =>
    rw [List.length_cons, List.range_succ_eq_map, List.map_cons, List.map_map]
    refine congrArg₂ _ rfl ?_
    rw [show ((fun j => (v :: vs).getD j x) ∘ Nat.succ)
        = (fun j => vs.getD j x) from ?_, ih]
    funext j
    simp

/-- C8: `meteo_data_hourly_to_daily` is idempotent on already-daily input:
on a weather table with exactly one row per calendar day of a consecutive
daily date range, resampling changes neither the row count nor any value —
the table is returned unchanged. -/
theorem c8_resample_idempotent_on_daily (t : WTable) (a : ℤ) (n : ℕ)
    (hd : t.date = (List.range (n + 1)).map
      (fun (i : ℕ) => some ((a + (i : ℤ) : ℤ) : ℚ)))
    (hc : ∀ c ∈ t.cols, (c.2).length = n + 1) :
    resampleDaily t = t := by
  have hvd : validDays t = (List.range (n + 1)).map
      (fun (i : ℕ) => a + (i : ℤ)) := by
    rw [validDays, hd, reduceOption_map_somes, List.map_map]
    refine List.map_congr_left ?_
    intro i _
    simp [dayOf, Int.floor_intCast]
  have hne : validDays t ≠ [] := by rw [hvd]; simp
  obtain ⟨m, hm, hmmem, hmle⟩ := listMin_spec (validDays t) hne
  obtain ⟨M, hM, hMmem, hMge⟩ := listMax_spec (validDays t) hne
  have hma : m = a := by
    have h1 : a ∈ validDays t := by
      rw [hvd]
      exact List.mem_map.mpr ⟨0, by simp, by simp⟩
    obtain ⟨i, _, hie⟩ := List.mem_map.mp (hvd ▸ hmmem)
    have h2 := hmle a h1
    omega
  have hMA : M = a + n := by
    have h1 : a + (n : ℤ) ∈ validDays t := by
      rw [hvd]
      exact List.mem_map.mpr ⟨n, by simp, rfl⟩
    obtain ⟨i, hir, hie⟩ := List.mem_map.mp (hvd ▸ hMmem)
    have h2 := hMge _ h1
    have h3 : i < n + 1 := List.mem_range.mp hir
    omega
  have hcr : closedRange a (a + (n : ℤ)) = (List.range (n + 1)).map
      (fun (i : ℕ) => a + (i : ℤ)) := by
    rw [closedRange, show ((a + (n : ℤ)) - a + 1).toNat = n + 1 from by omega]
  have hres : resampleDaily t = WTable.mk
      ((closedRange m M).map (fun (d : ℤ) => some ((d : ℚ))))
      (t.cols.map (fun c => (c.1, (closedRange m M).map
        (fun d => nanmean (cellsOnDay t.date c.2 d))))) := by
    unfold resampleDaily
    rw [hm, hM]
  rw [hres, hma, hMA, hcr]
  obtain ⟨dt, ct⟩ := t
  dsimp only at hd hc ⊢
  simp only [WTable.mk.injEq]
  refine ⟨?_, ?_⟩
  · rw [List.map_map, hd]
    exact List.map_congr_left (fun i _ => rfl)
  · conv_rhs => rw [← List.map_id ct]
    refine List.map_congr_left ?_
    intro c hcm
    obtain ⟨nm, vals⟩ := c
    have hlen : vals.length = n + 1 := hc (nm, vals) hcm
    simp only [List.map_map, id, Prod.mk.injEq]
    refine ⟨by simp, ?_⟩
    have hd' : dt = (List.range (vals.length)).map
        (fun (i : ℕ) => some ((a + (i : ℤ) : ℤ) : ℚ)) := by
      rw [hlen, hd]
    calc (List.range (n + 1)).map
          ((fun d => nanmean (cellsOnDay dt vals d)) ∘ (fun (i : ℕ) => a + (i : ℤ)))
        = (List.range (n + 1)).map (fun (j : ℕ) => vals.getD j none) := by
          refine List.map_congr_left ?_
          intro j hj
          simp only [Function.comp]
          rw [hd', cellsOnDay_consec vals a j
            (by rw [hlen]; exact List.mem_range.mp hj)]
          exact nanmean_singleton _
      _ = vals := by rw [← hlen, map_range_getD]

/-- Witness for C8 at a concrete two-day daily table (one cell NaN, to
exercise value preservation of missing data too). -/
theorem c8_resample_idempotent_on_daily_witness :
    resampleDaily ⟨[some 0, some 1], [("temp", [some 3, none])]⟩
      = ⟨[some 0, some 1], [("temp", [some 3, none])]⟩ :=
  c8_resample_idempotent_on_daily _ 0 1 (by decide) (by decide)

/-- C10: after `meteo_data_hourly_to_daily`, the weather table has one row
for every calendar day of the closed range from the earliest to the latest
valid input date — `closedRange a b` contains every day between the minimum
`a` and maximum `b`, the output date column enumerates exactly it, and a day
of the range on which no valid input date falls gets a row whose numeric
cells are all null. -/
theorem c10_resample_covers_full_range (t : WTable) (h : validDays t ≠ []) :
    ∃ a b, listMin (validDays t) = some a ∧ listMax (validDays t) = some b ∧
      (∀ d : ℤ, d ∈ closedRange a b ↔ a ≤ d ∧ d ≤ b) ∧
      (resampleDaily t).date
        = (closedRange a b).map (fun (d : ℤ) => some ((d : ℚ))) ∧
      ∀ c ∈ (resampleDaily t).cols, (c.2).length = (closedRange a b).length ∧
        ∀ j (hj : j < (closedRange a b).length),
          (closedRange a b).get ⟨j, hj⟩ ∉ validDays t → (c.2)[j]? = some none := by
  obtain ⟨a, ha, hamem, hale⟩ := listMin_spec _ h
  obtain ⟨b, hb, hbmem, hble⟩ := listMax_spec _ h
  have hres : resampleDaily t = WTable.mk
      ((closedRange a b).map (fun (d : ℤ) => some ((d : ℚ))))
      (t.cols.map (fun c => (c.1, (closedRange a b).map
        (fun d => nanmean (cellsOnDay t.date c.2 d))))) := by
    unfold resampleDaily
    rw [ha, hb]
  refine ⟨a, b, ha, hb, ?_, ?_, ?_⟩
  · intro d
    constructor
    · intro hd
      obtain ⟨i, hir, rfl⟩ := List.mem_map.mp hd
      have := List.mem_range.mp hir
      omega
    · rintro ⟨h1, h2⟩
      refine List.mem_map.mpr ⟨(d - a).toNat, List.mem_range.mpr (by omega),
        by omega⟩
  · rw [hres]
  · rw [hres]
    intro c hcm
    obtain ⟨c0, _, rfl⟩ := List.mem_map.mp hcm
    refine ⟨by simp, ?_⟩
    intro j hj hnot
    have hget : ((closedRange a b).map
        (fun d => nanmean (cellsOnDay t.date c0.2 d)))[j]?
        = some (nanmean (cellsOnDay t.date c0.2 ((closedRange a b).get ⟨j, hj⟩))) := by
      rw [List.getElem?_map, List.getElem?_eq_getElem hj]
      rfl
    rw [hget, cellsOnDay_nil]
    · rfl
    · intro q hq hqd
      exact hnot (hqd ▸ List.mem_map.mpr
        ⟨q, List.reduceOption_mem_iff.mpr hq, rfl⟩)

/-- Witness for C10 at a concrete table with a one-day gap (days 0 and 2
observed, day 1 absent). -/
theorem c10_resample_covers_full_range_witness :
    ∃ a b, listMin (validDays ⟨[some 0, some 2], [("x", [some 1, some 5])]⟩)
        = some a ∧
      listMax (validDays ⟨[some 0, some 2], [("x", [some 1, some 5])]⟩)
        = some b ∧
      (∀ d : ℤ, d ∈ closedRange a b ↔ a ≤ d ∧ d ≤ b) ∧
      (resampleDaily ⟨[some 0, some 2], [("x", [some 1, some 5])]⟩).date
        = (closedRange a b).map (fun (d : ℤ) => some ((d : ℚ))) ∧
      ∀ c ∈ (resampleDaily ⟨[some 0, some 2],
          [("x", [some 1, some 5])]⟩).cols,
        (c.2).length = (closedRange a b).length ∧
        ∀ j (hj : j < (closedRange a b).length),
          (closedRange a b).get ⟨j, hj⟩
              ∉ validDays ⟨[some 0, some 2], [("x", [some 1, some 5])]⟩ →
            (c.2)[j]? = some none :=
  c10_resample_covers_full_range _ (by decide)

/-! ### Column bookkeeping lemmas for `DF.setCol` -/

/-- Replacing the `n` column rewrites what a lookup of `n` finds. -/
theorem find?_set_map (n : String) (vs : List Cell)
    (cols : List (String × List Cell)) :
    (cols.map (fun p => if p.1 == n then (p.1, vs) else p)).find?
        (fun p => p.1 == n)
      = (cols.find? (fun p => p.1 == n)).map (fun p => (p.1, vs)) := by
  rw [List.find?_map]
  rw [show ((fun (p : String × List Cell) => p.1 == n)
      ∘ (fun p => if p.1 == n then (p.1, vs) else p))
      = (fun (p : String × List Cell) => p.1 == n) from by
    funext p
    by_cases hpn : p.1 = n <;> simp [hpn]]
  cases hf : cols.find? (fun p => p.1 == n) with
  | none => rfl
  | some p =>
    have hpn : p.1 = n := by simpa using List.find?_some hf
    simp [hpn]

/-- Replacing the `n` column leaves a lookup of any other name unchanged. -/
theorem find?_set_map_other (n n' : String) (vs : List Cell) (hne : n' ≠ n)
    (cols : List (String × List Cell)) :
    (cols.map (fun p => if p.1 == n then (p.1, vs) else p)).find?
        (fun p => p.1 == n')
      = cols.find? (fun p => p.1 == n') := by
  rw [List.find?_map]
  rw [show ((fun (p : String × List Cell) => p.1 == n')
      ∘ (fun p => if p.1 == n then (p.1, vs) else p))
      = (fun (p : String × List Cell) => p.1 == n') from by
    funext p
    by_cases hpn : p.1 = n <;> simp [hpn]]
  cases hf : cols.find? (fun p => p.1 == n') with
  | none => rfl
  | some p =>
    have hpn' : p.1 = n' := by simpa using List.find?_some hf
    have hpn : ¬ (p.1 = n) := by
      rw [hpn']
      exact hne
    simp [hpn]

/-- `data[n] = vs` makes column `n` read back as `vs`. -/
theorem DF.colD_setCol_self (df : DF) (n : String) (vs : List Cell) :
    (df.setCol n vs).colD n = vs := by
  unfold DF.setCol
  by_cases hc : df.names.contains n
  · rw [if_pos hc]
    unfold DF.colD DF.col?
    dsimp only
    rw [find?_set_map]
    cases hfind : df.cols.find? (fun p => p.1 == n) with
    | some p => simp
    | none =>
      exfalso
      have hnone := List.find?_eq_none.mp hfind
      have hmem : n ∈ df.names := by simpa using hc
      obtain ⟨p, hp, hpn⟩ := List.mem_map.mp hmem
      exact absurd (by simp [hpn]) (hnone p hp)
  · rw [if_neg hc]
    unfold DF.colD DF.col?
    dsimp only
    rw [List.find?_append]
    have hnone : df.cols.find? (fun p => p.1 == n) = none := by
      rw [List.find?_eq_none]
      intro p hp
      have hnm : n ∉ df.names := by simpa using hc
      simp only [Bool.not_eq_true, beq_eq_false_iff_ne, ne_eq]
      exact fun h => hnm (h ▸ List.mem_map.mpr ⟨p, hp, rfl⟩)
    rw [hnone]
    simp [List.find?]

/-- `data[n] = vs` leaves every other column unchanged. -/
theorem DF.colD_setCol_other (df : DF) (n n' : String) (vs : List Cell)
    (hne : n' ≠ n) : (df.setCol n vs).colD n' = df.colD n' := by
  unfold DF.setCol
  by_cases hc : df.names.contains n
  · rw [if_pos hc]
    unfold DF.colD DF.col?
    dsimp only
    rw [find?_set_map_other n n' vs hne]
  · rw [if_neg hc]
    unfold DF.colD DF.col?
    dsimp only
    rw [List.find?_append]
    rw [show ([(n, vs)].find? (fun p => p.1 == n')) = none from by
      have hnn : ¬ (n = n') := fun h => hne h.symm
      simp [List.find?_cons, hnn]]
    cases df.cols.find? (fun p => p.1 == n') <;> rfl

/-! ### C3: the risk-index formula -/

/-- Numeric extraction undoes `Cell.num` wrapping. -/
theorem filterMap_toNum_map_num (l : List ℝ) :
    (l.map Cell.num).filterMap Cell.toNum = l := by
  induction l with
  | nil => rfl
  | cons x xs ih => simp [Cell.toNum, ih]

/-- A sum of squares over a list is zero only if every term vanishes. -/
theorem eq_zero_of_sum_sq_zero (l : List ℝ) (h : (l.map (fun v => v ^ 2)).sum = 0) :
    ∀ v ∈ l, v = 0 := by
  induction l with
  | nil => simp
  | cons x xs ih =>
    rw [List.map_cons, List.sum_cons] at h
    have hs : (0 : ℝ) ≤ ((xs.map (fun v => v ^ 2)).sum) :=
      List.sum_nonneg (fun y hy => by
        obtain ⟨v, _, rfl⟩ := List.mem_map.mp hy
        exact sq_nonneg v)
    have hx2 : x ^ 2 = 0 := by nlinarith [sq_nonneg x]
    have hrest : ((xs.map (fun v => v ^ 2)).sum) = 0 := by
      nlinarith [sq_nonneg x]
    intro v hv
    rcases List.mem_cons.mp hv with hvx | hvx
    · subst hvx
      exact pow_eq_zero_iff two_ne_zero |>.mp hx2
    · exact ih hrest v hvx

/-- When a column's fitted variance is zero, every value equals the mean. -/
theorem eq_mean_of_specVar_zero (xs : List ℝ) (hx : xs ≠ [])
    (hv : specVar xs = 0) : ∀ x ∈ xs, x = specMean xs := by
  have hlen : (xs.length : ℝ) ≠ 0 :=
    Nat.cast_ne_zero.mpr (fun h0 => hx (List.length_eq_zero.mp h0))
  have hsum : ((xs.map (fun v => (v - specMean xs) ^ 2)).sum) = 0 := by
    unfold specVar at hv
    field_simp at hv
    exact hv
  intro x hxm
  have := eq_zero_of_sum_sq_zero (xs.map (fun v => v - specMean xs))
    (by rw [List.map_map]; exact hsum) (x - specMean xs)
    (List.mem_map.mpr ⟨x, hxm, rfl⟩)
  linarith

/-- The scaler's division (scale 1 substituted for a zero variance) agrees
with the spec-side `z` on every member of the column. -/
theorem scaled_eq_specZ (xs : List ℝ) (hx : xs ≠ []) (x : ℝ) (hxm : x ∈ xs) :
    (x - specMean xs) / (if specVar xs = 0 then 1 else Real.sqrt (specVar xs))
      = specZ xs x := by
  unfold specZ
  by_cases hv : specVar xs = 0
  · rw [if_pos hv, hv]
    rw [eq_mean_of_specVar_zero xs hx hv x hxm]
    simp
  · rw [if_neg hv]

/-- `fitTransform` on an all-valid column produces exactly the
`(x - mean) / scale` values with the statistics of that column. -/
theorem fitTransform_map_some (ys : List ℝ) (hne : ys ≠ []) :
    fitTransform (ys.map some) = ys.map (fun x =>
      some ((x - specMean ys)
        / (if specVar ys = 0 then 1 else Real.sqrt (specVar ys)))) := by
  have hro : (ys.map some).reduceOption = ys := by
    simpa using reduceOption_map_somes ys id
  have hlen : ys.length ≠ 0 := fun h => hne (List.length_eq_zero.mp h)
  have hmean : nanmeanR (ys.map some) = some (specMean ys) := by
    unfold nanmeanR specMean
    rw [hro]
    rw [if_neg hlen]
  have hvar : nanvarR (ys.map some) = some (specVar ys) := by
    unfold nanvarR specVar
    rw [hmean, hro]
    rfl
  have hscale : scaleOf (ys.map some) = some
      (if specVar ys = 0 then 1 else Real.sqrt (specVar ys)) := by
    unfold scaleOf
    rw [hvar]
    rfl
  unfold fitTransform
  rw [List.map_map, hmean, hscale]
  refine List.map_congr_left ?_
  intro x _
  rfl

/-- On inputs that pass all three checks, the body of
`calculate_risk_metrics` reaches its success branch. -/
theorem calculateRiskMetricsCore_ok (df : DF)
    (hreq : ∀ c ∈ requiredColumns, c ∈ df.names)
    (hnum : (((df.colD "rendement_estime") ++ df.colD "ph"
      ++ df.colD "matiere_organique").all numericOk) = true)
    (hn : (df.colD "rendement_estime").length ≠ 0) :
    calculateRiskMetricsCore df = .ok
      ((df.setCol "risk_index" (riskIndexCells df)).setCol "risk_category"
        (riskCategoryCells df),
       riskGroupby (keyCells (df.colD "parcelle_id") (df.colD "culture"))
         (risksOf df) ((risksOf df).map (Option.map riskCut))) := by
  have hfind : requiredColumns.find? (fun c => !(df.names.contains c))
      = none := by
    rw [List.find?_eq_none]
    intro c hc
    simp [hreq c hc]
  unfold calculateRiskMetricsCore
  rw [hfind, hnum]
  simp [hn]

/-- `combineRisk` over three all-valid standardized columns. -/
theorem combineRisk_map_fns (xs1 xs2 xs3 : List ℝ) (f1 f2 f3 : ℝ → ℝ) :
    combineRisk (xs1.map (fun x => some (f1 x)))
        (xs2.map (fun x => some (f2 x))) (xs3.map (fun x => some (f3 x)))
      = (xs1.zip (xs2.zip xs3)).map (fun t =>
          some (0.5 * f1 t.1 + 0.3 * f2 t.2.1 + 0.2 * f3 t.2.2)) := by
  unfold combineRisk
  rw [List.zip_map, List.zip_map, List.map_map]
  refine List.map_congr_left ?_
  rintro ⟨a, b, c⟩ _
  rfl

/-- C3: on every accepted input table (required columns present, the three
feature columns numeric and non-empty, columns of equal length), the
`risk_index` column written by `calculate_risk_metrics` equals, row by row,
`0.5·z(rendement_estime) + 0.3·z(ph) + 0.2·z(matiere_organique)` where `z`
is the zero-mean unit-variance standardization fitted on that same input
table (`specZ`), with the fixed weights 0.5/0.3/0.2. -/
theorem c3_risk_index_is_weighted_zscores (df : DF)
    (hreq : ∀ c ∈ requiredColumns, c ∈ df.names)
    (hy : ∃ ys : List ℝ, df.colD "rendement_estime" = ys.map Cell.num)
    (hp : ∃ ps : List ℝ, df.colD "ph" = ps.map Cell.num)
    (hm : ∃ ms : List ℝ, df.colD "matiere_organique" = ms.map Cell.num)
    (hn : (df.colD "rendement_estime") ≠ [])
    (hl1 : (df.colD "ph").length = (df.colD "rendement_estime").length)
    (hl2 : (df.colD "matiere_organique").length
      = (df.colD "rendement_estime").length) :
    ((calculateRiskMetrics df).1).colD "risk_index"
      = (List.range (colNums df "rendement_estime").length).map (fun i =>
          Cell.num (specRiskIndex (colNums df "rendement_estime")
            (colNums df "ph") (colNums df "matiere_organique") i)) := by
  obtain ⟨ys, hys⟩ := hy
  obtain ⟨ps, hps⟩ := hp
  obtain ⟨ms, hms⟩ := hm
  have hysne : ys ≠ [] := by
    intro h0
    rw [h0] at hys
    exact hn (by simpa using hys)
  have hly : ps.length = ys.length := by
    have := hl1
    rw [hys, hps] at this
    simpa using this
  have hlm : ms.length = ys.length := by
    have := hl2
    rw [hys, hms] at this
    simpa using this
  have hpsne : ps ≠ [] := by
    intro h0
    rw [h0] at hly
    exact hysne (List.length_eq_zero.mp hly.symm)
  have hmsne : ms ≠ [] := by
    intro h0
    rw [h0] at hlm
    exact hysne (List.length_eq_zero.mp hlm.symm)
  have hnum : (((df.colD "rendement_estime") ++ df.colD "ph"
      ++ df.colD "matiere_organique").all numericOk) = true := by
    rw [hys, hps, hms, List.all_eq_true]
    intro c hc
    rcases List.mem_append.mp hc with hc' | hc'
    · rcases List.mem_append.mp hc' with hc'' | hc'' <;>
      · obtain ⟨v, _, rfl⟩ := List.mem_map.mp hc''
        rfl
    · obtain ⟨v, _, rfl⟩ := List.mem_map.mp hc'
      rfl
  have hnlen : (df.colD "rendement_estime").length ≠ 0 :=
    fun h0 => hn (List.length_eq_zero.mp h0)
  have hfst : (calculateRiskMetrics df).1 = (df.setCol "risk_index"
      (riskIndexCells df)).setCol "risk_category" (riskCategoryCells df) := by
    unfold calculateRiskMetrics
    rw [calculateRiskMetricsCore_ok df hreq hnum hnlen]
  rw [hfst, DF.colD_setCol_other _ _ _ _ (by decide), DF.colD_setCol_self]
  have hcy : colNums df "rendement_estime" = ys := by
    rw [colNums, hys, filterMap_toNum_map_num]
  have hcp : colNums df "ph" = ps := by
    rw [colNums, hps, filterMap_toNum_map_num]
  have hcm : colNums df "matiere_organique" = ms := by
    rw [colNums, hms, filterMap_toNum_map_num]
  rw [hcy, hcp, hcm]
  unfold riskIndexCells risksOf
  rw [hys, hps, hms]
  rw [show (ys.map Cell.num).map Cell.toNum = ys.map (fun x => some x) from by
      rw [List.map_map]; rfl]
  rw [show (ps.map Cell.num).map Cell.toNum = ps.map (fun x => some x) from by
      rw [List.map_map]; rfl]
  rw [show (ms.map Cell.num).map Cell.toNum = ms.map (fun x => some x) from by
      rw [List.map_map]; rfl]
  rw [show (ys.map (fun x => some x)) = ys.map some from rfl,
    show (ps.map (fun x => some x)) = ps.map some from rfl,
    show (ms.map (fun x => some x)) = ms.map some from rfl]
  rw [fitTransform_map_some ys hysne, fitTransform_map_some ps hpsne,
    fitTransform_map_some ms hmsne, combineRisk_map_fns, List.map_map]
  apply List.ext_getElem
  · simp [hly, hlm]
  · intro i h1 h2
    have hiys : i < ys.length := by
      simpa [hly, hlm] using h1
    have hips : i < ps.length := by omega
    have hims : i < ms.length := by omega
    rw [List.getElem_map, List.getElem_map, List.getElem_zip,
      List.getElem_zip, List.getElem_range]
    simp only [Function.comp]
    unfold specRiskIndex
    rw [List.getD_eq_getElem ys 0 hiys, List.getD_eq_getElem ps 0 hips,
      List.getD_eq_getElem ms 0 hims]
    rw [scaled_eq_specZ ys hysne _ (List.getElem_mem hiys),
      scaled_eq_specZ ps hpsne _ (List.getElem_mem hips),
      scaled_eq_specZ ms hmsne _ (List.getElem_mem hims)]

/-- Witness for C3 at a concrete five-column, two-row table. -/
theorem c3_risk_index_is_weighted_zscores_witness :
    ((calculateRiskMetrics ⟨[("parcelle_id", [Cell.str "P1", Cell.str "P1"]),
        ("culture", [Cell.str "ble", Cell.str "ble"]),
        ("rendement_estime", [Cell.num 1, Cell.num 3]),
        ("ph", [Cell.num 6, Cell.num 7]),
        ("matiere_organique", [Cell.num 2, Cell.num 4])]⟩).1).colD "risk_index"
      = (List.range (colNums ⟨[("parcelle_id", [Cell.str "P1", Cell.str "P1"]),
          ("culture", [Cell.str "ble", Cell.str "ble"]),
          ("rendement_estime", [Cell.num 1, Cell.num 3]),
          ("ph", [Cell.num 6, Cell.num 7]),
          ("matiere_organique", [Cell.num 2, Cell.num 4])]⟩
            "rendement_estime").length).map (fun i =>
          Cell.num (specRiskIndex
            (colNums ⟨[("parcelle_id", [Cell.str "P1", Cell.str "P1"]),
              ("culture", [Cell.str "ble", Cell.str "ble"]),
              ("rendement_estime", [Cell.num 1, Cell.num 3]),
              ("ph", [Cell.num 6, Cell.num 7]),
              ("matiere_organique", [Cell.num 2, Cell.num 4])]⟩
                "rendement_estime")
            (colNums ⟨[("parcelle_id", [Cell.str "P1", Cell.str "P1"]),
              ("culture", [Cell.str "ble", Cell.str "ble"]),
              ("rendement_estime", [Cell.num 1, Cell.num 3]),
              ("ph", [Cell.num 6, Cell.num 7]),
              ("matiere_organique", [Cell.num 2, Cell.num 4])]⟩ "ph")
            (colNums ⟨[("parcelle_id", [Cell.str "P1", Cell.str "P1"]),
              ("culture", [Cell.str "ble", Cell.str "ble"]),
              ("rendement_estime", [Cell.num 1, Cell.num 3]),
              ("ph", [Cell.num 6, Cell.num 7]),
              ("matiere_organique", [Cell.num 2, Cell.num 4])]⟩
                "matiere_organique") i)) :=
  c3_risk_index_is_weighted_zscores _ (by decide)
    ⟨[1, 3], rfl⟩ ⟨[6, 7], rfl⟩ ⟨[2, 4], rfl⟩
    (List.cons_ne_nil _ _) rfl rfl

/-! ### C9: the risk scorer mutates its input table -/

/-- Assigning a fresh column appends it to the table. -/
theorem DF.setCol_of_not_mem (df : DF) (n : String) (vs : List Cell)
    (h : n ∉ df.names) : df.setCol n vs = ⟨df.cols ++ [(n, vs)]⟩ := by
  unfold DF.setCol
  rw [if_neg (by simpa using h)]

/-- C9 (counterexample): `calculate_risk_metrics` does *not* leave its input
table unchanged — on a well-formed five-column feature table the caller's
table has two more columns after the call (`data['risk_index'] = …` and
`data['risk_category'] = …` mutate the passed DataFrame in place). -/
theorem c9_counterexample :
    ((calculateRiskMetrics ⟨[("parcelle_id", [Cell.str "P1", Cell.str "P1"]),
        ("culture", [Cell.str "ble", Cell.str "ble"]),
        ("rendement_estime", [Cell.num 1, Cell.num 3]),
        ("ph", [Cell.num 6, Cell.num 7]),
        ("matiere_organique", [Cell.num 2, Cell.num 4])]⟩).1).names
      ≠ (DF.mk [("parcelle_id", [Cell.str "P1", Cell.str "P1"]),
        ("culture", [Cell.str "ble", Cell.str "ble"]),
        ("rendement_estime", [Cell.num 1, Cell.num 3]),
        ("ph", [Cell.num 6, Cell.num 7]),
        ("matiere_organique", [Cell.num 2, Cell.num 4])]).names := by
  unfold calculateRiskMetrics
  rw [calculateRiskMetricsCore_ok (DF.mk [("parcelle_id",
      [Cell.str "P1", Cell.str "P1"]),
      ("culture", [Cell.str "ble", Cell.str "ble"]),
      ("rendement_estime", [Cell.num 1, Cell.num 3]),
      ("ph", [Cell.num 6, Cell.num 7]),
      ("matiere_organique", [Cell.num 2, Cell.num 4])])
      (by decide) (by decide) (by decide)]
  dsimp only
  rw [DF.setCol_of_not_mem _ _ _ (by decide),
    DF.setCol_of_not_mem _ _ _ (by decide)]
  decide

/-- C9 (amended): the earlier pipeline stages pass tables along as values,
but `calculate_risk_metrics` mutates its input: on every accepted input
table the caller's table afterwards is the input with exactly the two
columns `risk_index` and `risk_category` appended, the original columns
left unchanged. -/
theorem c9_risk_scorer_appends_columns (df : DF)
    (hreq : ∀ c ∈ requiredColumns, c ∈ df.names)
    (hnum : (((df.colD "rendement_estime") ++ df.colD "ph"
      ++ df.colD "matiere_organique").all numericOk) = true)
    (hn : (df.colD "rendement_estime").length ≠ 0)
    (h1 : "risk_index" ∉ df.names) (h2 : "risk_category" ∉ df.names) :
    ((calculateRiskMetrics df).1).cols
      = df.cols ++ [("risk_index", riskIndexCells df),
          ("risk_category", riskCategoryCells df)] := by
  have hfst : (calculateRiskMetrics df).1 = (df.setCol "risk_index"
      (riskIndexCells df)).setCol "risk_category" (riskCategoryCells df) := by
    unfold calculateRiskMetrics
    rw [calculateRiskMetricsCore_ok df hreq hnum hn]
  have h2' : "risk_category" ∉ (DF.mk (df.cols
      ++ [("risk_index", riskIndexCells df)])).names := by
    unfold DF.names
    rw [List.map_append]
    intro hmem
    rcases List.mem_append.mp hmem with hmem' | hmem'
    · exact h2 hmem'
    · simp at hmem'
  rw [hfst, DF.setCol_of_not_mem _ _ _ h1, DF.setCol_of_not_mem _ _ _ h2']
  simp

/-- Witness for the amended C9 at a concrete five-column table. -/
theorem c9_risk_scorer_appends_columns_witness :
    ((calculateRiskMetrics ⟨[("parcelle_id", [Cell.str "P1", Cell.str "P1"]),
        ("culture", [Cell.str "ble", Cell.str "ble"]),
        ("rendement_estime", [Cell.num 1, Cell.num 3]),
        ("ph", [Cell.num 6, Cell.num 7]),
        ("matiere_organique", [Cell.num 2, Cell.num 4])]⟩).1).cols
      = (DF.mk [("parcelle_id", [Cell.str "P1", Cell.str "P1"]),
          ("culture", [Cell.str "ble", Cell.str "ble"]),
          ("rendement_estime", [Cell.num 1, Cell.num 3]),
          ("ph", [Cell.num 6, Cell.num 7]),
          ("matiere_organique", [Cell.num 2, Cell.num 4])]).cols
        ++ [("risk_index", riskIndexCells ⟨[("parcelle_id",
              [Cell.str "P1", Cell.str "P1"]),
            ("culture", [Cell.str "ble", Cell.str "ble"]),
            ("rendement_estime", [Cell.num 1, Cell.num 3]),
            ("ph", [Cell.num 6, Cell.num 7]),
            ("matiere_organique", [Cell.num 2, Cell.num 4])]⟩),
          ("risk_category", riskCategoryCells ⟨[("parcelle_id",
              [Cell.str "P1", Cell.str "P1"]),
            ("culture", [Cell.str "ble", Cell.str "ble"]),
            ("rendement_estime", [Cell.num 1, Cell.num 3]),
            ("ph", [Cell.num 6, Cell.num 7]),
            ("matiere_organique", [Cell.num 2, Cell.num 4])]⟩)] :=
  c9_risk_scorer_appends_columns _ (by decide) (by decide) (by decide)
    (by decide) (by decide)

/-! ### C7: the aggregation per (parcelle_id, culture) -/

/-- Inserting into a sorted key list permutes consing. -/
theorem insertKey_perm (k : String × String) (l : List (String × String)) :
    List.Perm (insertKey k l) (k :: l) := by
  induction l with
  | nil => exact List.Perm.refl _
  | cons x xs ih =>
    unfold insertKey
    by_cases h : keyLE k x = true
    · rw [if_pos h]
    · rw [if_neg h]
      exact (List.Perm.cons x ih).trans (List.Perm.swap _ _ _)

/-- The key sort is a permutation. -/
theorem sortKeys_perm (l : List (String × String)) :
    List.Perm (sortKeys l) l := by
  induction l with
  | nil => exact List.Perm.refl _
  | cons x xs ih =>
    exact (insertKey_perm x (sortKeys xs)).trans (List.Perm.cons x ih)

/-- Filtering the groupby rows for one key and keeping the risk cells gives
exactly the spec-side group of risks. -/
theorem groupRows_filter_risks :
    ∀ (keys : List (Option (String × String))) (risks : List (Option ℝ))
      (cats : List (Option RiskCat)), keys.length = risks.length →
      risks.length = cats.length → ∀ k,
      (((groupRows keys risks cats).filter (fun r => r.1 == k)).map
        (fun r => r.2.1)) = groupRisks keys risks k := by
  intro keys
  induction keys with
  | nil => intro risks cats _ _ k; rfl
  | cons k0 ks ih =>
    intro risks cats h1 h2 k
    cases risks with
    | nil => simp at h1
    | cons r rs =>
      cases cats with
      | nil => simp at h2
      | cons c cs =>
        have h1' : ks.length = rs.length := by simpa using h1
        have h2' : rs.length = cs.length := by simpa using h2
        cases k0 with
        | none =>
          simp only [groupRows, groupRisks, List.zip_cons_cons,
            List.filterMap_cons, Option.map_none, List.filter_cons]
          simpa [groupRows, groupRisks] using ih rs cs h1' h2' k
        | some k1 =>
          by_cases hk : k1 = k
          · subst hk
            simp only [groupRows, groupRisks, List.zip_cons_cons,
              List.filterMap_cons, Option.map_some, List.filter_cons]
            simpa [groupRows, groupRisks] using ih rs cs h1' h2' k1
          · simp only [groupRows, groupRisks, List.zip_cons_cons,
              List.filterMap_cons, Option.map_some, List.filter_cons]
            simpa [groupRows, groupRisks, hk] using ih rs cs h1' h2' k


/-- Filtering the groupby rows for one key and keeping the category cells
gives exactly the spec-side group of categories. -/
theorem groupRows_filter_cats :
    ∀ (keys : List (Option (String × String))) (risks : List (Option ℝ))
      (cats : List (Option RiskCat)), keys.length = risks.length →
      risks.length = cats.length → ∀ k,
      (((groupRows keys risks cats).filter (fun r => r.1 == k)).map
        (fun r => r.2.2)) = groupCats keys cats k := by
  intro keys
  induction keys with
  | nil => intro risks cats _ _ k; rfl
  | cons k0 ks ih =>
    intro risks cats h1 h2 k
    cases risks with
    | nil => simp at h1
    | cons r rs =>
      cases cats with
      | nil => simp at h2
      | cons c cs =>
        have h1' : ks.length = rs.length := by simpa using h1
        have h2' : rs.length = cs.length := by simpa using h2
        cases k0 with
        | none =>
          simp only [groupRows, groupCats, List.zip_cons_cons,
            List.filterMap_cons, Option.map_none, List.filter_cons]
          simpa [groupRows, groupCats] using ih rs cs h1' h2' k
        | some k1 =>
          by_cases hk : k1 = k
          · subst hk
            simp only [groupRows, groupCats, List.zip_cons_cons,
              List.filterMap_cons, Option.map_some, List.filter_cons]
            simpa [groupRows, groupCats] using ih rs cs h1' h2' k1
          · simp only [groupRows, groupCats, List.zip_cons_cons,
              List.filterMap_cons, Option.map_some, List.filter_cons]
            simpa [groupRows, groupCats, hk] using ih rs cs h1' h2' k

/-- The keys of the groupby rows are exactly the non-null input keys. -/
theorem groupRows_keys_mem :
    ∀ (keys : List (Option (String × String))) (risks : List (Option ℝ))
      (cats : List (Option RiskCat)), keys.length = risks.length →
      risks.length = cats.length → ∀ k,
      (k ∈ (groupRows keys risks cats).map (fun r => r.1) ↔ some k ∈ keys) := by
  intro keys
  induction keys with
  | nil => intro risks cats _ _ k; simp [groupRows]
  | cons k0 ks ih =>
    intro risks cats h1 h2 k
    cases risks with
    | nil => simp at h1
    | cons r rs =>
      cases cats with
      | nil => simp at h2
      | cons c cs =>
        have h1' : ks.length = rs.length := by simpa using h1
        have h2' : rs.length = cs.length := by simpa using h2
        cases k0 with
        | none =>
          simpa [groupRows, List.filterMap_cons]
            using ih rs cs h1' h2' k
        | some k1 =>
          have hih := ih rs cs h1' h2' k
          simp only [groupRows, List.zip_cons_cons, List.filterMap_cons] at hih ⊢
          simp [hih]

/-- A fold of `max` bounds the seed and every element. -/
theorem le_foldl_max (l : List ℕ) (a : ℕ) :
    a ≤ l.foldl max a ∧ ∀ x ∈ l, x ≤ l.foldl max a := by
  induction l generalizing a with
  | nil => exact ⟨le_refl _, by simp⟩
  | cons x xs ih =>
    obtain ⟨h1, h2⟩ := ih (max a x)
    rw [List.foldl_cons]
    refine ⟨le_trans (le_max_left _ _) h1, ?_⟩
    intro y hy
    rcases List.mem_cons.mp hy with h | h
    · rw [h]
      exact le_trans (le_max_right a x) h1
    · exact h2 y h

/-- A fold of `max` is attained (or is the seed). -/
theorem foldl_max_attained (l : List ℕ) (a : ℕ) :
    l.foldl max a = a ∨ l.foldl max a ∈ l := by
  induction l generalizing a with
  | nil => exact Or.inl rfl
  | cons x xs ih =>
    rw [List.foldl_cons]
    rcases ih (max a x) with h | h
    · rw [h]
      rcases max_choice a x with hc | hc
      · exact Or.inl hc
      · refine Or.inr ?_
        rw [hc]
        exact List.mem_cons_self _ _
    · exact Or.inr (List.mem_cons_of_mem _ h)

/-- A category occurs in a column iff its count is positive. -/
theorem catCount_pos_iff (cs : List (Option RiskCat)) (c : RiskCat) :
    0 < catCount cs c ↔ some c ∈ cs := by
  unfold catCount
  rw [List.countP_pos_iff]
  constructor
  · rintro ⟨a, ha, hpa⟩
    have : a = some c := by simpa using hpa
    exact this ▸ ha
  · intro h
    exact ⟨some c, h, by simp⟩

/-- Every category is listed in `allCats`. -/
theorem mem_allCats (c : RiskCat) : c ∈ allCats := by
  cases c <;> simp [allCats]

/-- The aggregated category is `None` exactly on a group with no non-null
category. -/
theorem catMode_eq_none_iff (cs : List (Option RiskCat)) :
    catMode cs = none ↔ cs.reduceOption = [] := by
  unfold catMode
  by_cases h : cs.reduceOption.isEmpty
  · rw [if_pos h]
    simpa [List.isEmpty_iff] using h
  · rw [if_neg h]
    have hne : cs.reduceOption ≠ [] := by simpa [List.isEmpty_iff] using h
    constructor
    · intro hfind
      exfalso
      have hnone := List.find?_eq_none.mp hfind
      -- the maximum of the four counts is attained and positive
      obtain ⟨c₀, hc₀⟩ := List.exists_mem_of_ne_nil _ hne
      have hc₀m : some c₀ ∈ cs := List.reduceOption_mem_iff.mp hc₀
      have hpos : 0 < catCount cs c₀ := (catCount_pos_iff cs c₀).mpr hc₀m
      have hle := (le_foldl_max (allCats.map (catCount cs)) 0).2
        (catCount cs c₀) (List.mem_map.mpr ⟨c₀, mem_allCats c₀, rfl⟩)
      rcases foldl_max_attained (allCats.map (catCount cs)) 0 with hz | hmem
      · rw [hz] at hle
        omega
      · obtain ⟨c₁, hc₁, hc₁e⟩ := List.mem_map.mp hmem
        exact absurd (by simpa using hc₁e) (by simpa using hnone c₁ hc₁)
    · intro h0
      exact absurd (List.isEmpty_iff.mpr h0) h

/-- Case analysis of a `find?` over the four-category list: the found
category satisfies the predicate and every earlier category fails it. -/
theorem find?_allCats_cases (q : RiskCat → Bool) (c : RiskCat)
    (h : allCats.find? q = some c) :
    (c = RiskCat.tresBas ∧ q RiskCat.tresBas = true) ∨
    (c = RiskCat.bas ∧ q RiskCat.tresBas = false ∧ q RiskCat.bas = true) ∨
    (c = RiskCat.modere ∧ q RiskCat.tresBas = false ∧ q RiskCat.bas = false
      ∧ q RiskCat.modere = true) ∨
    (c = RiskCat.eleve ∧ q RiskCat.tresBas = false ∧ q RiskCat.bas = false
      ∧ q RiskCat.modere = false ∧ q RiskCat.eleve = true) := by
  rw [show allCats = [RiskCat.tresBas, RiskCat.bas, RiskCat.modere,
    RiskCat.eleve] from rfl] at h
  cases h0 : q RiskCat.tresBas <;> cases h1 : q RiskCat.bas <;>
    cases h2 : q RiskCat.modere <;> cases h3 : q RiskCat.eleve <;>
    simp [List.find?_cons, h0, h1, h2, h3] at h <;>
    simp [h0, h1, h2, h3, h]

/-- Specification of the aggregated category on a non-degenerate group: it
occurs in the group, has maximal count, and among the categories attaining
that count it is the least in the category order. -/
theorem catMode_spec (cs : List (Option RiskCat)) (c : RiskCat)
    (h : catMode cs = some c) :
    some c ∈ cs ∧ (∀ c', catCount cs c' ≤ catCount cs c) ∧
      ∀ c', catCount cs c' = catCount cs c → c.rank ≤ c'.rank := by
  unfold catMode at h
  by_cases he : cs.reduceOption.isEmpty
  · rw [if_pos he] at h
    exact absurd h (by simp)
  · rw [if_neg he] at h
    have hfound := List.find?_some h
    have hcm : catCount cs c = (allCats.map (catCount cs)).foldl max 0 := by
      simpa using hfound
    have hle : ∀ c', catCount cs c' ≤ catCount cs c := by
      intro c'
      rw [hcm]
      exact (le_foldl_max _ 0).2 _ (List.mem_map.mpr ⟨c', mem_allCats c', rfl⟩)
    have hne : cs.reduceOption ≠ [] := by simpa [List.isEmpty_iff] using he
    refine ⟨?_, hle, ?_⟩
    · obtain ⟨c₀, hc₀⟩ := List.exists_mem_of_ne_nil _ hne
      have hc₀m : some c₀ ∈ cs := List.reduceOption_mem_iff.mp hc₀
      have hpos : 0 < catCount cs c₀ := (catCount_pos_iff cs c₀).mpr hc₀m
      exact (catCount_pos_iff cs c).mp (lt_of_lt_of_le hpos (hle c₀))
    · intro c' hc'
      have hM : catCount cs c' = (allCats.map (catCount cs)).foldl max 0 :=
        hc'.trans hcm
      rcases find?_allCats_cases _ c h with
        ⟨rfl, _⟩ | ⟨rfl, hq0, _⟩ | ⟨rfl, hq0, hq1, _⟩ | ⟨rfl, hq0, hq1, hq2, _⟩
      · exact Nat.zero_le _
      · cases c' with
        | tresBas => simp [hM] at hq0
        | bas => exact le_refl _
        | modere => simp [RiskCat.rank]
        | eleve => simp [RiskCat.rank]
      · cases c' with
        | tresBas => simp [hM] at hq0
        | bas => simp [hM] at hq1
        | modere => exact le_refl _
        | eleve => simp [RiskCat.rank]
      · cases c' with
        | tresBas => simp [hM] at hq0
        | bas => simp [hM] at hq1
        | modere => simp [hM] at hq2
        | eleve => exact le_refl _

/-- C7 (amended): the table produced by the `groupby` of
`calculate_risk_metrics` has exactly one row per distinct
`(parcelle_id, culture)` pair present in the input, its `avg_risk_index` is
the NaN-skipping mean of the group's `risk_index` values, and its
`most_frequent_risk_category` is the group's most frequent non-null
category — ties broken by the *smallest category in the ascending category
order* (`Series.mode` of a categorical returns its modes sorted), not by
first encounter — with an all-null group yielding a null category. -/
theorem c7_groupby_aggregation (keys : List (Option (String × String)))
    (risks : List (Option ℝ)) (cats : List (Option RiskCat))
    (h1 : keys.length = risks.length) (h2 : risks.length = cats.length) :
    ((riskGroupby keys risks cats).map
      (fun g => (g.parcelle_id, g.culture))).Nodup ∧
    (∀ k, k ∈ (riskGroupby keys risks cats).map
      (fun g => (g.parcelle_id, g.culture)) ↔ some k ∈ keys) ∧
    ∀ g ∈ riskGroupby keys risks cats,
      g.avg_risk_index = nanmeanR (groupRisks keys risks
        (g.parcelle_id, g.culture)) ∧
      (g.most_frequent_risk_category = none ↔
        (groupCats keys cats (g.parcelle_id, g.culture)).reduceOption = []) ∧
      ∀ c, g.most_frequent_risk_category = some c →
        some c ∈ groupCats keys cats (g.parcelle_id, g.culture) ∧
        (∀ c', catCount (groupCats keys cats (g.parcelle_id, g.culture)) c'
          ≤ catCount (groupCats keys cats (g.parcelle_id, g.culture)) c) ∧
        ∀ c', catCount (groupCats keys cats (g.parcelle_id, g.culture)) c'
            = catCount (groupCats keys cats (g.parcelle_id, g.culture)) c →
          c.rank ≤ c'.rank := by
  have hrg : riskGroupby keys risks cats
      = (sortKeys (((groupRows keys risks cats).map
          (fun r => r.1)).dedup)).map (fun k =>
        { parcelle_id := k.1, culture := k.2,
          avg_risk_index := nanmeanR (((groupRows keys risks cats).filter
            (fun r => r.1 == k)).map (fun r => r.2.1)),
          most_frequent_risk_category := catMode
            (((groupRows keys risks cats).filter
              (fun r => r.1 == k)).map (fun r => r.2.2)) }) := rfl
  have hproj : (riskGroupby keys risks cats).map
      (fun g => (g.parcelle_id, g.culture))
      = sortKeys (((groupRows keys risks cats).map (fun r => r.1)).dedup) := by
    rw [hrg, List.map_map]
    rw [show ((fun g : RiskGroup => (g.parcelle_id, g.culture)) ∘
      (fun k : String × String =>
        ({ parcelle_id := k.1, culture := k.2,
           avg_risk_index := nanmeanR (((groupRows keys risks cats).filter
             (fun r => r.1 == k)).map (fun r => r.2.1)),
           most_frequent_risk_category := catMode
             (((groupRows keys risks cats).filter
               (fun r => r.1 == k)).map (fun r => r.2.2)) } : RiskGroup)))
      = id from rfl]
    exact List.map_id _
  refine ⟨?_, ?_, ?_⟩
  · rw [hproj]
    exact (sortKeys_perm _).symm.nodup (List.nodup_dedup _)
  · intro k
    rw [hproj, (sortKeys_perm _).mem_iff, List.mem_dedup]
    exact groupRows_keys_mem keys risks cats h1 h2 k
  · intro g hg
    rw [hrg] at hg
    obtain ⟨k, _, rfl⟩ := List.mem_map.mp hg
    refine ⟨?_, ?_, ?_⟩
    · show nanmeanR (((groupRows keys risks cats).filter
        (fun r => r.1 == k)).map (fun r => r.2.1)) = _
      rw [groupRows_filter_risks keys risks cats h1 h2]
    · show catMode (((groupRows keys risks cats).filter
        (fun r => r.1 == k)).map (fun r => r.2.2)) = none ↔ _
      rw [groupRows_filter_cats keys risks cats h1 h2]
      exact catMode_eq_none_iff _
    · intro c hc
      have hc' : catMode (groupCats keys cats k) = some c := by
        rw [← groupRows_filter_cats keys risks cats h1 h2]
        exact hc
      exact catMode_spec _ c hc'

/-- Witness for the amended C7 at a concrete one-row input. -/
theorem c7_groupby_aggregation_witness :
    ((riskGroupby [some ("P1", "ble")] [some 1] [some RiskCat.modere]).map
      (fun g => (g.parcelle_id, g.culture))).Nodup ∧
    (∀ k, k ∈ (riskGroupby [some ("P1", "ble")] [some 1]
        [some RiskCat.modere]).map (fun g => (g.parcelle_id, g.culture))
      ↔ some k ∈ [some (("P1", "ble") : String × String)]) ∧
    ∀ g ∈ riskGroupby [some ("P1", "ble")] [some 1] [some RiskCat.modere],
      g.avg_risk_index = nanmeanR (groupRisks [some ("P1", "ble")] [some 1]
        (g.parcelle_id, g.culture)) ∧
      (g.most_frequent_risk_category = none ↔
        (groupCats [some ("P1", "ble")] [some RiskCat.modere]
          (g.parcelle_id, g.culture)).reduceOption = []) ∧
      ∀ c, g.most_frequent_risk_category = some c →
        some c ∈ groupCats [some ("P1", "ble")] [some RiskCat.modere]
          (g.parcelle_id, g.culture) ∧
        (∀ c', catCount (groupCats [some ("P1", "ble")]
            [some RiskCat.modere] (g.parcelle_id, g.culture)) c'
          ≤ catCount (groupCats [some ("P1", "ble")]
            [some RiskCat.modere] (g.parcelle_id, g.culture)) c) ∧
        ∀ c', catCount (groupCats [some ("P1", "ble")]
            [some RiskCat.modere] (g.parcelle_id, g.culture)) c'
            = catCount (groupCats [some ("P1", "ble")]
              [some RiskCat.modere] (g.parcelle_id, g.culture)) c →
          c.rank ≤ c'.rank :=
  c7_groupby_aggregation [some ("P1", "ble")] [some 1] [some RiskCat.modere]
    (by decide) (by decide)

/-- C7 (counterexample): ties are *not* broken by first-encountered mode.
In a group whose categories are `Modéré` then `Très Bas` (a tie, one
occurrence each), the first-encountered category is `Modéré`, yet the
aggregation returns `Très Bas` — the smallest tied category in the category
order, as `Series.mode()[0]` does on a categorical. -/
theorem c7_counterexample :
    riskGroupby [some ("P1", "ble"), some ("P1", "ble")]
        [some 1, some (-1)] [some RiskCat.modere, some RiskCat.tresBas]
      = [{ parcelle_id := "P1", culture := "ble", avg_risk_index := some 0,
           most_frequent_risk_category := some RiskCat.tresBas }] ∧
    catCount [some RiskCat.modere, some RiskCat.tresBas] RiskCat.modere
      = catCount [some RiskCat.modere, some RiskCat.tresBas]
          RiskCat.tresBas ∧
    ([some RiskCat.modere, some RiskCat.tresBas].reduceOption.head?
      = some RiskCat.modere) ∧
    RiskCat.tresBas ≠ RiskCat.modere := by
  refine ⟨?_, by decide, by decide, by decide⟩
  rw [show riskGroupby [some ("P1", "ble"), some ("P1", "ble")]
      [some 1, some (-1)] [some RiskCat.modere, some RiskCat.tresBas]
      = [RiskGroup.mk "P1" "ble" (nanmeanR [some 1, some (-1)])
          (catMode [some RiskCat.modere, some RiskCat.tresBas])] from rfl]
  rw [show catMode [some RiskCat.modere, some RiskCat.tresBas]
      = some RiskCat.tresBas from by decide]
  rw [show nanmeanR [some 1, some (-1)] = some 0 from by
    simp [nanmeanR, List.reduceOption]]

/-! ### C1: the temporal analyzer -/

/-- Insertion keeps the rows, as a permutation. -/
theorem insertByDate_perm (r : FeatRow) (l : List FeatRow) :
    List.Perm (insertByDate r l) (r :: l) := by
  induction l with
  | nil => exact List.Perm.refl _
  | cons x xs ih =>
    unfold insertByDate
    by_cases h : r.fdate < x.fdate
    · rw [if_pos h]
    · rw [if_neg h]
      exact (List.Perm.cons x ih).trans (List.Perm.swap _ _ _)

/-- `sort_values` permutes the parcel rows. -/
theorem sortByDate_perm (l : List FeatRow) :
    List.Perm (sortByDate l) l := by
  induction l with
  | nil => exact List.Perm.refl _
  | cons x xs ih =>
    exact (insertByDate_perm x (sortByDate xs)).trans (List.Perm.cons x ih)

/-- With no missing NDVI, dropping NaNs keeps every row. -/
theorem filterMap_ndvi_length (l : List FeatRow)
    (h : ∀ r ∈ l, r.ndvi.isSome) :
    (l.filterMap (fun r => r.ndvi.map (fun v => (r.fdate, v)))).length
      = l.length := by
  induction l with
  | nil => rfl
  | cons r rs ih =>
    obtain ⟨v, hv⟩ := Option.isSome_iff_exists.mp
      (h r (List.mem_cons_self _ _))
    rw [List.filterMap_cons]
    rw [show r.ndvi.map (fun v => (r.fdate, v)) = some (r.fdate, v) from by
      rw [hv]; rfl]
    simp only [List.length_cons]
    rw [ih (fun x hx => h x (List.mem_cons_of_mem _ hx))]

/-- Every date of the NDVI series is a date of the underlying rows. -/
theorem series_fst_mem (l : List FeatRow) (p : ℤ × ℚ)
    (hp : p ∈ l.filterMap (fun r => r.ndvi.map (fun v => (r.fdate, v)))) :
    p.1 ∈ l.map (fun r => r.fdate) := by
  obtain ⟨r, hr, hre⟩ := List.mem_filterMap.mp hp
  obtain ⟨v, _, hve⟩ := Option.map_eq_some'.mp hre
  exact List.mem_map.mpr ⟨r, hr, by rw [← hve]⟩

/-- A mean over a column with at least one observation is defined. -/
theorem nanmean_isSome_of_mem (xs : List (Option ℚ)) (v : ℚ)
    (h : some v ∈ xs) : (nanmean xs).isSome := by
  unfold nanmean
  have hv : v ∈ xs.reduceOption := List.reduceOption_mem_iff.mpr h
  rw [if_neg]
  · rfl
  · intro h0
    rw [List.length_eq_zero.mp h0] at hv
    exact absurd hv (List.not_mem_nil v)

/-- The convolution trend is defined away from the edges. -/
theorem trendAt_isSome (xs : List ℚ) (i : ℕ) (h6 : 6 ≤ i)
    (h7 : i + 6 < xs.length) : (trendAt xs i).isSome := by
  simp [trendAt, h6, h7]

/-- The detrended series is defined away from the edges. -/
theorem detrendAt_isSome (xs : List ℚ) (i : ℕ) (h6 : 6 ≤ i)
    (h7 : i + 6 < xs.length) : (detrendAt xs i).isSome := by
  unfold detrendAt
  obtain ⟨t, ht⟩ := Option.isSome_iff_exists.mp (trendAt_isSome xs i h6 h7)
  rw [ht]
  rfl

/-- With at least two full periods, every phase has at least one defined
detrended observation, so every raw period average is defined. -/
theorem pavgRaw_isSome (xs : List ℚ) (h24 : 24 ≤ xs.length) (k : ℕ)
    (hk : k < 12) : (pavgRaw xs k).isSome := by
  have hex : ∃ i, i < xs.length ∧ i % 12 = k ∧ 6 ≤ i ∧ i + 6 < xs.length := by
    by_cases h6 : 6 ≤ k
    · exact ⟨k, by omega, Nat.mod_eq_of_lt hk, h6, by omega⟩
    · refine ⟨k + 12, by omega, ?_, by omega, by omega⟩
      omega
  obtain ⟨i, hi1, hi2, hi3, hi4⟩ := hex
  obtain ⟨d, hd⟩ := Option.isSome_iff_exists.mp (detrendAt_isSome xs i hi3 hi4)
  refine nanmean_isSome_of_mem _ d (List.mem_map.mpr ⟨i, ?_, hd⟩)
  rw [List.mem_filter]
  exact ⟨List.mem_range.mpr hi1, by simpa using hi2⟩

/-- With at least two full periods, the mean of the period averages is
defined. -/
theorem pavgMean_isSome (xs : List ℚ) (h24 : 24 ≤ xs.length) :
    (pavgMean xs).isSome := by
  unfold pavgMean
  rw [if_pos]
  · rfl
  · rw [List.all_eq_true]
    intro o ho
    obtain ⟨k, hk, hke⟩ := List.mem_map.mp ho
    exact hke ▸ pavgRaw_isSome xs h24 k (List.mem_range.mp hk)

/-- With at least two full periods, the seasonal component is everywhere
defined. -/
theorem seasonalAt_isSome (xs : List ℚ) (h24 : 24 ≤ xs.length) (i : ℕ) :
    (seasonalAt xs i).isSome := by
  unfold seasonalAt
  obtain ⟨p, hp⟩ := Option.isSome_iff_exists.mp
    (pavgRaw_isSome xs h24 (i % 12) (Nat.mod_lt i (by norm_num)))
  obtain ⟨m, hm⟩ := Option.isSome_iff_exists.mp (pavgMean_isSome xs h24)
  rw [hp, hm]
  rfl

/-- With at least two full periods, the residual is defined away from the
edges. -/
theorem residAt_isSome (xs : List ℚ) (h24 : 24 ≤ xs.length) (i : ℕ)
    (h6 : 6 ≤ i) (h7 : i + 6 < xs.length) : (residAt xs i).isSome := by
  unfold residAt
  obtain ⟨d, hd⟩ := Option.isSome_iff_exists.mp (detrendAt_isSome xs i h6 h7)
  obtain ⟨sv, hs⟩ := Option.isSome_iff_exists.mp (seasonalAt_isSome xs h24 i)
  rw [hd, hs]
  rfl

/-- Every index of a date/component zip after dropping NaNs is a date of the
series. -/
theorem zip_filterMap_fst_mem (dates : List ℤ) (tr : List (Option ℚ))
    (p : ℤ × ℚ)
    (hp : p ∈ (dates.zip tr).filterMap (fun q => q.2.map (fun v => (q.1, v)))) :
    p.1 ∈ dates := by
  obtain ⟨q, hq, hqe⟩ := List.mem_filterMap.mp hp
  obtain ⟨v, _, hve⟩ := Option.map_eq_some'.mp hqe
  rw [← hve]
  exact (List.of_mem_zip hq).1

/-- A date/component zip with one defined component survives `dropna`
non-empty. -/
theorem zip_filterMap_ne_nil (dates : List ℤ) (tr : List (Option ℚ)) (i : ℕ)
    (hi1 : i < dates.length) (hi2 : i < tr.length)
    (hsome : (tr.get ⟨i, hi2⟩).isSome) :
    (dates.zip tr).filterMap (fun q => q.2.map (fun v => (q.1, v))) ≠ [] := by
  intro h0
  have hiz : i < (dates.zip tr).length := by
    rw [List.length_zip]
    omega
  have hmem : (dates.get ⟨i, hi1⟩, tr.get ⟨i, hi2⟩) ∈ dates.zip tr := by
    rw [show (dates.get ⟨i, hi1⟩, tr.get ⟨i, hi2⟩)
        = (dates.zip tr).get ⟨i, hiz⟩ from by
      simp [List.get_eq_getElem, List.getElem_zip]]
    exact List.get_mem _ _ _
  obtain ⟨v, hv⟩ := Option.isSome_iff_exists.mp hsome
  have := List.filterMap_eq_nil_iff.mp h0 _ hmem
  rw [hv] at this
  simp at this

/-- C1 (amended): for every parcel whose rows in the feature table number at
least 24 with no missing NDVI value, `get_temporal_patterns` returns a
non-`None` result whose trend, seasonal and residual series are non-empty
and indexed by a subset of that parcel's input dates. (24 observations are
what the period-12 seasonal decomposition actually needs — two complete
cycles — and a missing NDVI value would make the regression step raise on
mismatched shapes; both failures are caught and become `None`.) -/
theorem c1_temporal_patterns_after_two_cycles (features : List FeatRow)
    (pid : String)
    (h24 : 24 ≤ (features.filter (fun r => r.parcelle_id == pid)).length)
    (hall : ∀ r ∈ features.filter (fun r => r.parcelle_id == pid),
      r.ndvi.isSome) :
    ∃ hist fit, getTemporalPatterns features pid = some (hist, fit) ∧
      hist.ndvi_trend ≠ [] ∧ hist.ndvi_seasonal ≠ [] ∧
      hist.ndvi_residual ≠ [] ∧
      (∀ p ∈ hist.ndvi_trend, p.1 ∈ (features.filter
        (fun r => r.parcelle_id == pid)).map (fun r => r.fdate)) ∧
      (∀ p ∈ hist.ndvi_seasonal, p.1 ∈ (features.filter
        (fun r => r.parcelle_id == pid)).map (fun r => r.fdate)) ∧
      (∀ p ∈ hist.ndvi_residual, p.1 ∈ (features.filter
        (fun r => r.parcelle_id == pid)).map (fun r => r.fdate)) := by
  have hperm := sortByDate_perm (features.filter (fun r => r.parcelle_id == pid))
  have hsl : (sortByDate (features.filter (fun r => r.parcelle_id == pid))).length
      = (features.filter (fun r => r.parcelle_id == pid)).length :=
    hperm.length_eq
  have hall' : ∀ r ∈ sortByDate (features.filter (fun r => r.parcelle_id == pid)),
      r.ndvi.isSome :=
    fun r hr => hall r (hperm.mem_iff.mp hr)
  have hser : ((sortByDate (features.filter (fun r => r.parcelle_id == pid))).filterMap
        (fun r => r.ndvi.map (fun v => (r.fdate, v)))).length
      = (sortByDate (features.filter (fun r => r.parcelle_id == pid))).length :=
    filterMap_ndvi_length _ hall'
  have hn24 : 24 ≤ ((sortByDate (features.filter
      (fun r => r.parcelle_id == pid))).filterMap
        (fun r => r.ndvi.map (fun v => (r.fdate, v)))).length := by
    omega
  have hpe : (features.filter (fun r => r.parcelle_id == pid)).isEmpty
      = false := by
    cases hF : features.filter (fun r => r.parcelle_id == pid) with
    | nil =>
      rw [hF] at h24
      simp at h24
    | cons a l => rfl
  have h12 : ¬ ((sortByDate (features.filter
      (fun r => r.parcelle_id == pid))).filterMap
        (fun r => r.ndvi.map (fun v => (r.fdate, v)))).length < 12 := by
    omega
  have hxl : (((sortByDate (features.filter
      (fun r => r.parcelle_id == pid))).filterMap
        (fun r => r.ndvi.map (fun v => (r.fdate, v)))).map
          (fun p => p.2)).length
      = ((sortByDate (features.filter (fun r => r.parcelle_id == pid))).filterMap
        (fun r => r.ndvi.map (fun v => (r.fdate, v)))).length :=
    List.length_map _ _
  have hdec : seasonalDecompose12 (((sortByDate (features.filter
      (fun r => r.parcelle_id == pid))).filterMap
        (fun r => r.ndvi.map (fun v => (r.fdate, v)))).map (fun p => p.2))
      = some ((List.range (((sortByDate (features.filter
          (fun r => r.parcelle_id == pid))).filterMap
            (fun r => r.ndvi.map (fun v => (r.fdate, v)))).map
              (fun p => p.2)).length).map (trendAt (((sortByDate
          (features.filter (fun r => r.parcelle_id == pid))).filterMap
            (fun r => r.ndvi.map (fun v => (r.fdate, v)))).map (fun p => p.2))),
        (List.range (((sortByDate (features.filter
          (fun r => r.parcelle_id == pid))).filterMap
            (fun r => r.ndvi.map (fun v => (r.fdate, v)))).map
              (fun p => p.2)).length).map (seasonalAt (((sortByDate
          (features.filter (fun r => r.parcelle_id == pid))).filterMap
            (fun r => r.ndvi.map (fun v => (r.fdate, v)))).map (fun p => p.2))),
        (List.range (((sortByDate (features.filter
          (fun r => r.parcelle_id == pid))).filterMap
            (fun r => r.ndvi.map (fun v => (r.fdate, v)))).map
              (fun p => p.2)).length).map (residAt (((sortByDate
          (features.filter (fun r => r.parcelle_id == pid))).filterMap
            (fun r => r.ndvi.map (fun v => (r.fdate, v)))).map
              (fun p => p.2)))) := by
    unfold seasonalDecompose12
    rw [if_neg]
    omega
  have hne : ¬ ((sortByDate (features.filter
      (fun r => r.parcelle_id == pid))).length
      ≠ ((sortByDate (features.filter (fun r => r.parcelle_id == pid))).filterMap
        (fun r => r.ndvi.map (fun v => (r.fdate, v)))).length) :=
    not_ne_iff.mpr hser.symm
  have hs24 : 24 ≤ (seriesOf features pid).length := hn24
  have hx24 : 24 ≤ ((seriesOf features pid).map (fun p => p.2)).length := by
    rw [List.length_map]
    exact hs24
  have hsub : ∀ d : ℤ, d ∈ (seriesOf features pid).map (fun p => p.1) →
      d ∈ (features.filter (fun r => r.parcelle_id == pid)).map
        (fun r => r.fdate) := by
    intro d hd
    obtain ⟨q, hq, hqe⟩ := List.mem_map.mp hd
    have h1 := series_fst_mem _ q hq
    rw [hqe] at h1
    exact (hperm.map (fun r => r.fdate)).mem_iff.mp h1
  have hgtp : getTemporalPatterns features pid
      = some (histOf features pid, fitOf features pid) := by
    simp only [getTemporalPatterns, hpe, Bool.false_eq_true, if_false]
    rw [if_neg h12, hdec]
    simp only [hser, ne_eq, eq_self_iff_true, not_true_eq_false, if_false]
    rfl
  refine ⟨histOf features pid, fitOf features pid, hgtp, ?_, ?_, ?_, ?_, ?_, ?_⟩
  · show (((seriesOf features pid).map (fun p => p.1)).zip
      ((List.range ((seriesOf features pid).map (fun p => p.2)).length).map
        (trendAt ((seriesOf features pid).map (fun p => p.2))))).filterMap
      (fun p => p.2.map (fun v => (p.1, v))) ≠ []
    refine zip_filterMap_ne_nil _ _ 6 (by rw [List.length_map]; omega)
      (by rw [List.length_map, List.length_range, List.length_map]; omega) ?_
    rw [show ((List.range ((seriesOf features pid).map
        (fun p => p.2)).length).map (trendAt ((seriesOf features pid).map
          (fun p => p.2)))).get ⟨6, by
            rw [List.length_map, List.length_range, List.length_map]; omega⟩
        = trendAt ((seriesOf features pid).map (fun p => p.2)) 6 from by
      simp [List.get_eq_getElem]]
    exact trendAt_isSome _ 6 (le_refl _) (by omega)
  · show ((seriesOf features pid).map (fun p => p.1)).zip
      ((List.range ((seriesOf features pid).map (fun p => p.2)).length).map
        (seasonalAt ((seriesOf features pid).map (fun p => p.2)))) ≠ []
    have hlz : 0 < (((seriesOf features pid).map (fun p => p.1)).zip
        ((List.range ((seriesOf features pid).map (fun p => p.2)).length).map
          (seasonalAt ((seriesOf features pid).map (fun p => p.2))))).length := by
      rw [List.length_zip, List.length_map, List.length_map,
        List.length_range, List.length_map]
      omega
    intro h0
    rw [h0] at hlz
    simp at hlz
  · show (((seriesOf features pid).map (fun p => p.1)).zip
      ((List.range ((seriesOf features pid).map (fun p => p.2)).length).map
        (residAt ((seriesOf features pid).map (fun p => p.2))))).filterMap
      (fun p => p.2.map (fun v => (p.1, v))) ≠ []
    refine zip_filterMap_ne_nil _ _ 6 (by rw [List.length_map]; omega)
      (by rw [List.length_map, List.length_range, List.length_map]; omega) ?_
    rw [show ((List.range ((seriesOf features pid).map
        (fun p => p.2)).length).map (residAt ((seriesOf features pid).map
          (fun p => p.2)))).get ⟨6, by
            rw [List.length_map, List.length_range, List.length_map]; omega⟩
        = residAt ((seriesOf features pid).map (fun p => p.2)) 6 from by
      simp [List.get_eq_getElem]]
    exact residAt_isSome _ hx24 6 (le_refl _) (by omega)
  · intro p hp
    exact hsub p.1 (zip_filterMap_fst_mem _ _ p hp)
  · intro p hp
    exact hsub p.1 (List.of_mem_zip hp).1
  · intro p hp
    exact hsub p.1 (zip_filterMap_fst_mem _ _ p hp)

/-- Witness for the amended C1 at a concrete 24-observation parcel. -/
theorem c1_temporal_patterns_after_two_cycles_witness :
    ∃ hist fit, getTemporalPatterns ((List.range 24).map (fun i =>
        FeatRow.mk "P001" ((i : ℤ)) (some ((i : ℚ))) "ble" 0 0 [] none none
          none)) "P001" = some (hist, fit) ∧
      hist.ndvi_trend ≠ [] ∧ hist.ndvi_seasonal ≠ [] ∧
      hist.ndvi_residual ≠ [] ∧
      (∀ p ∈ hist.ndvi_trend, p.1 ∈ (((List.range 24).map (fun i =>
        FeatRow.mk "P001" ((i : ℤ)) (some ((i : ℚ))) "ble" 0 0 [] none none
          none)).filter (fun r => r.parcelle_id == "P001")).map
            (fun r => r.fdate)) ∧
      (∀ p ∈ hist.ndvi_seasonal, p.1 ∈ (((List.range 24).map (fun i =>
        FeatRow.mk "P001" ((i : ℤ)) (some ((i : ℚ))) "ble" 0 0 [] none none
          none)).filter (fun r => r.parcelle_id == "P001")).map
            (fun r => r.fdate)) ∧
      (∀ p ∈ hist.ndvi_residual, p.1 ∈ (((List.range 24).map (fun i =>
        FeatRow.mk "P001" ((i : ℤ)) (some ((i : ℚ))) "ble" 0 0 [] none none
          none)).filter (fun r => r.parcelle_id == "P001")).map
            (fun r => r.fdate)) :=
  c1_temporal_patterns_after_two_cycles _ "P001" (by decide) (by decide)

/-- C1 (counterexample): a parcel with exactly 12 non-null NDVI
observations — which the claim says suffices — makes
`get_temporal_patterns` return `None`: its own guard passes (`12 < 12` is
false) but `seasonal_decompose(period=12)` requires two complete cycles
(24 observations) and raises, the caught exception yielding `None, None`. -/
theorem c1_counterexample :
    getTemporalPatterns ((List.range 12).map (fun i =>
        FeatRow.mk "P001" ((i : ℤ)) (some ((i : ℚ))) "ble" 0 0 [] none none
          none)) "P001" = none ∧
    (((List.range 12).map (fun i =>
        FeatRow.mk "P001" ((i : ℤ)) (some ((i : ℚ))) "ble" 0 0 [] none none
          none)).filter (fun r => r.parcelle_id == "P001")).countP
      (fun r => r.ndvi.isSome) = 12 := by
  constructor
  · rfl
  · decide

end AnalyseAgricoles
